import Mathlib

/-!
# GATT server (Windows backend): `AddService`, the read/write request handlers and
# `Characteristic.Write`

A shallow embedding of `gatts_windows.go`.

* Go pointers to `Characteristic` are addresses (`Nat`) into a heap that holds one
  `Characteristic` struct per address.
* Calls into the native Bluetooth stack are recorded, in program order, in a trace of
  effects.  The outcome of every fallible native call (success, or the error it returns) is
  input data: each operation takes a record holding the outcome of each native call it can
  make.  Inside one run of an operation every such call site is reached at most once (once
  per loop iteration for `AddService`), so the record covers every possible behaviour of the
  native side.
* `sync.Mutex` is a struct with one `locked` bit.  `Lock` on a locked mutex does not return
  (nobody else runs in the sequential model); `Lock` through a nil pointer panics.
* Deferred calls run when the function returns or panics, last registered first.
* A write callback is known by its identity; invoking it is recorded in the trace with its
  arguments, and what the callback does is not part of the model.
* `awaitAsyncOperation` is declared in another file; awaiting is one fallible native step.
* `WriteBytes(n, v)` hands the native writer `n` bytes starting at the first byte of `v`,
  where `n` is a `uint32`.
-/

namespace Bluetooth

/-- Byte slices (`[]byte`); every element stands for one byte. -/
abbrev Bytes := List Nat

/-- Go `error` values that are not nil. -/
abbrev Error := Nat

/-- Modelled from the spec: the `UUID` type of the package, which is declared in another
file.  Only the identity of a UUID is used, through `syscallUUIDFromUUID`. -/
abbrev UUID := Nat

/-- The Go struct `syscall.GUID`. -/
structure GUID where
  Data1 : Nat
  Data2 : Nat
  Data3 : Nat
  Data4 : List Nat
deriving DecidableEq, Repr

/-- Calls into the native stack, with the arguments that matter. -/
inductive NativeOp where
  | GattServiceProviderCreateAsync (uuid : GUID)
  | awaitServiceProvider
  | getResultsServiceProvider
  | GetServiceProvider
  | GetService
  | NewGattLocalCharacteristicParameters
  | SetCharacteristicProperties (flags : Nat)
  | CreateCharacteristicAsync (uuid : GUID)
  | awaitCharacteristic
  | getResultsCharacteristic
  | GetCharacteristic
  | AddWriteRequested
  | AddReadRequested
  | NewGattServiceProviderAdvertisingParameters
  | SetIsConnectable (b : Bool)
  | SetIsDiscoverable (b : Bool)
  | StartAdvertisingWithParameters
  | GetRequestAsync
  | awaitRequest
  | getResultsRequest
  | GetValue
  | GetOffset
  | GetUuid
  | NewDataWriter
  | WriteBytes (valueSize : Nat) (value : Bytes)
  | DetachBuffer
  | RespondWithValue (buf : Bytes)
  | NotifyValueAsync (characteristic : Nat) (buf : Bytes)
  | awaitNotify
  | getResultsNotify
  | releaseWriter
  | releaseBuffer
  | releaseOp
  | releaseVector
deriving DecidableEq, Repr

/-- Observable effects of the Go code, in program order. -/
inductive Effect where
  | native (op : NativeOp)
  | lock (c : Nat)
  | unlock (c : Nat)
  | store (c : Nat) (value : Bytes)
  | writeEvent (f : Nat) (client : Nat) (offset : Int) (value : Bytes)
deriving DecidableEq, Repr

/-- The struct `sync.Mutex`. -/
structure Mutex where
  locked : Bool
deriving DecidableEq, Repr

/-- The struct `Characteristic`.  `writeEvent` is the identity of a callback, `none` is a
nil function value; `wintCharacteristic` and `valueMtx` are nil when `none`. -/
structure Characteristic where
  wintCharacteristic : Option Nat
  writeEvent : Option Nat
  flags : Nat
  valueMtx : Option Mutex
  value : Bytes
deriving DecidableEq, Repr

/-- The zero value of `Characteristic`. -/
def Characteristic.zero : Characteristic :=
  { wintCharacteristic := none, writeEvent := none, flags := 0, valueMtx := none, value := [] }

/-- Program state: the heap of `Characteristic` structs and the trace of effects so far
(oldest first). -/
structure World where
  heap : Nat → Characteristic
  trace : List Effect

/-- Append one effect to the trace. -/
def World.emit (w : World) (e : Effect) : World :=
  { w with trace := w.trace ++ [e] }

/-- Overwrite the struct at address `c`. -/
def World.update (w : World) (c : Nat) (f : Characteristic → Characteristic) : World :=
  { w with heap := fun a => if a = c then f (w.heap a) else w.heap a }

/-- The assignment `c.value = p`. -/
def World.setValue (w : World) (c : Nat) (p : Bytes) : World :=
  (w.update c fun ch => { ch with value := p }).emit (.store c p)

/-- The conversion `uint32(n)` of a length. -/
def uint32 (n : Nat) : Nat := n % 2 ^ 32

/-- How a call of a Go function ends: it returns, it panics, or it never returns because it
waits for a mutex that is held. -/
inductive Outcome (α : Type) where
  | returned (a : α) (w : World)
  | panicked (w : World)
  | blocked (w : World)

/-- The world at the end of a call. -/
def Outcome.world {α : Type} : Outcome α → World
  | .returned _ w => w
  | .panicked w => w
  | .blocked w => w

/-- Run a deferred call after the body: on return and on panic, not when the body never
finishes. -/
def Outcome.defer {α : Type} (o : Outcome α) (f : World → World) : Outcome α :=
  match o with
  | .returned a w => .returned a (f w)
  | .panicked w => .panicked (f w)
  | .blocked w => .blocked w

/-- The call `m.Lock()` on the mutex of the characteristic at `c`, then the continuation. -/
def withLock {α : Type} (c : Nat) (w : World) (k : World → Outcome α) : Outcome α :=
  match (w.heap c).valueMtx with
  | none => .panicked w
  | some m =>
    if m.locked then .blocked w
    else k ((w.update c fun ch => { ch with valueMtx := some { locked := true } }).emit (.lock c))

/-- The call `m.Unlock()` on the mutex of the characteristic at `c`. -/
def unlockMtx (c : Nat) (w : World) : World :=
  (w.update c fun ch => { ch with valueMtx := ch.valueMtx.map fun _ => { locked := false } }).emit
    (.unlock c)

/-- One fallible native call: `x, err := f(...)` followed by `if err != nil { return ... }`.
The call is recorded; when it failed the function returns through `fail`, otherwise it goes
on with `k`. -/
def attempt {α : Type} (op : NativeOp) (outcome : Option Error) (w : World)
    (fail : Error → World → α) (k : World → α) : α :=
  match outcome with
  | some err => fail err (w.emit (.native op))
  | none => k (w.emit (.native op))

/-! ## `Characteristic.Write` -/

/-- Outcomes of the native calls `Write` can make, in program order. -/
structure NotifyEnv where
  newDataWriter : Option Error
  writeBytes : Option Error
  detachBuffer : Option Error
  notifyValueAsync : Option Error
  await : Option Error
  getResults : Option Error

/-- The part of `Write` inside `if c.flags&CharacteristicNotifyPermission != 0`, followed by
the final `return length, nil`.  The constant `CharacteristicNotifyPermission` is declared
in another file of the package and is a parameter. -/
def Write.notify (CharacteristicNotifyPermission : Nat) (env : NotifyEnv) (c : Nat) (p : Bytes)
    (w : World) : Outcome (Nat × Option Error) :=
  let length := p.length
  let fail : Error → World → Outcome (Nat × Option Error) :=
    fun err w => .returned (length, some err) w
  if (w.heap c).flags &&& CharacteristicNotifyPermission ≠ 0 then
    attempt .NewDataWriter env.newDataWriter w fail fun w =>
    -- defer writer.Release()
    Outcome.defer (
      attempt (.WriteBytes (uint32 p.length) p) env.writeBytes w fail fun w =>
      attempt .DetachBuffer env.detachBuffer w fail fun w =>
      let buf := p.take (uint32 p.length)
      -- defer buf.Release()
      Outcome.defer (
        match (w.heap c).wintCharacteristic with
        | none => .panicked w
        | some characteristic =>
          attempt (.NotifyValueAsync characteristic buf) env.notifyValueAsync w fail fun w =>
          attempt .awaitNotify env.await w fail fun w =>
          -- defer op.Release()
          Outcome.defer (
            attempt .getResultsNotify env.getResults w fail fun w =>
            .returned (length, none) (w.emit (.native .releaseVector)))
            (fun w => w.emit (.native .releaseOp)))
        (fun w => w.emit (.native .releaseBuffer)))
      (fun w => w.emit (.native .releaseWriter))
  else
    .returned (length, none) w

/-- The method `Characteristic.Write` on the struct at address `c`. -/
def Write (CharacteristicNotifyPermission : Nat) (env : NotifyEnv) (c : Nat) (p : Bytes)
    (w : World) : Outcome (Nat × Option Error) :=
  let length := p.length
  if length = 0 then
    .returned (0, none) w
  else
    let w :=
      match (w.heap c).writeEvent with
      | some f => w.emit (.writeEvent f 0 0 p)
      | none => w
    withLock c w fun w =>
      -- defer c.valueMtx.Unlock()
      Outcome.defer (
        let w := w.setValue c p
        Write.notify CharacteristicNotifyPermission env c p w)
        (unlockMtx c)

/-! ## The request handlers built by `AddService` -/

/-- The map `goChars`: from the GUID of a characteristic to the address of its struct. -/
abbrev Registry := GUID → Option Nat

/-- The assignment `goChars[uuid] = handle`. -/
def Registry.insert (goChars : Registry) (uuid : GUID) (handle : Nat) : Registry :=
  fun g => if g = uuid then some handle else goChars g

/-- A write request delivered by the native stack: the outcome of each native call the
handler makes on it, with the payload, the offset (a `uint32`) and the GUID of the sender. -/
structure WriteRequestedEvent where
  getRequestAsync : Option Error
  await : Option Error
  getResults : Option Error
  getValue : Option Error
  value : Bytes
  getOffset : Option Error
  offset : Nat
  getUuid : Option Error
  uuid : GUID

/-- The closure `writeRequestedHandler` over the map `goChars`.  The helper `bufferToSlice`
is declared in another file of the package; the payload is the content of the buffer.  The
conversion `int(offset)` keeps the value of a `uint32` (64-bit `int`). -/
def writeRequestedHandler (goChars : Registry) (ev : WriteRequestedEvent) (w : World) :
    Outcome Unit :=
  let fail : Error → World → Outcome Unit := fun _ w => .returned () w
  attempt .GetRequestAsync ev.getRequestAsync w fail fun w =>
  attempt .awaitRequest ev.await w fail fun w =>
  attempt .getResultsRequest ev.getResults w fail fun w =>
  attempt .GetValue ev.getValue w fail fun w =>
  attempt .GetOffset ev.getOffset w fail fun w =>
  attempt .GetUuid ev.getUuid w fail fun w =>
  match goChars ev.uuid with
  | none => .returned () w
  | some goChar =>
    match (w.heap goChar).writeEvent with
    | some f => .returned () (w.emit (.writeEvent f 0 (Int.ofNat ev.offset) ev.value))
    | none => .returned () w

/-- A read request delivered by the native stack: the outcome of each native call the
handler makes for it, with the GUID of the sender. -/
structure ReadRequestedEvent where
  getRequestAsync : Option Error
  await : Option Error
  getResults : Option Error
  getUuid : Option Error
  uuid : GUID
  newDataWriter : Option Error
  writeBytes : Option Error
  detachBuffer : Option Error

/-- The closure `readRequestedHandler` over the map `goChars`.  `WriteBytes(n, v)` appends
the first `n` bytes of `v` to the writer; `DetachBuffer` hands out what was written. -/
def readRequestedHandler (goChars : Registry) (ev : ReadRequestedEvent) (w : World) :
    Outcome Unit :=
  let fail : Error → World → Outcome Unit := fun _ w => .returned () w
  attempt .GetRequestAsync ev.getRequestAsync w fail fun w =>
  attempt .awaitRequest ev.await w fail fun w =>
  attempt .getResultsRequest ev.getResults w fail fun w =>
  attempt .GetUuid ev.getUuid w fail fun w =>
  match goChars ev.uuid with
  | none => .returned () w
  | some goChar =>
    attempt .NewDataWriter ev.newDataWriter w fail fun w =>
    -- defer writer.Release()
    Outcome.defer (
      withLock goChar w fun w =>
        -- defer goChar.valueMtx.Unlock()
        Outcome.defer (
          let value := (w.heap goChar).value
          let respond : World → Bytes → Outcome Unit := fun w written =>
            attempt .DetachBuffer ev.detachBuffer w fail fun w =>
            let buf := written
            let w := w.emit (.native (.RespondWithValue buf))
            .returned () (w.emit (.native .releaseBuffer))
          if value.length > 0 then
            attempt (.WriteBytes (uint32 value.length) value) ev.writeBytes w fail fun w =>
            respond w (value.take (uint32 value.length))
          else
            respond w [])
          (unlockMtx goChar))
      (fun w => w.emit (.native .releaseWriter))

/-! ## `AddService` -/

/-- Modelled from the spec: the characteristic descriptor (the struct
`CharacteristicConfig`, which is declared in another file), with the fields `AddService`
reads (`Handle`, `UUID`, `Value`, `Flags`) and the optional write callback. -/
structure CharacteristicConfig where
  Handle : Option Nat
  UUID : UUID
  Value : Bytes
  Flags : Nat
  WriteEvent : Option Nat
deriving DecidableEq, Repr

/-- Modelled from the spec: the struct `Service`, which is declared in another file, with
the fields `AddService` reads. -/
structure Service where
  UUID : UUID
  Characteristics : List CharacteristicConfig
deriving DecidableEq, Repr

/-- Outcomes of the native calls of one iteration of the loop over the characteristics, with
the native characteristic that `GetCharacteristic` hands out. -/
structure CharEnv where
  newParameters : Option Error
  setProperties : Option Error
  createAsync : Option Error
  await : Option Error
  getResults : Option Error
  getCharacteristic : Option Error
  characteristic : Nat
  addWriteRequested : Option Error
  addReadRequested : Option Error

/-- Outcomes of the native calls of `AddService`; `chars i` is for iteration `i` of the
loop. -/
structure ServiceEnv where
  createAsync : Option Error
  await : Option Error
  getResults : Option Error
  getServiceProvider : Option Error
  getService : Option Error
  chars : Nat → CharEnv
  newAdvertisingParameters : Option Error
  setIsConnectable : Option Error
  setIsDiscoverable : Option Error
  startAdvertising : Option Error

/-- What `AddService` leaves behind: the error it returns (`none` is nil), the map `goChars`
its handlers close over, and the world. -/
structure Added where
  err : Option Error
  goChars : Registry
  world : World

/-- The block under "Keep the object around for Characteristic.Write": when the descriptor
has a `Handle`, fill the struct it points to and enter it in `goChars`. -/
def AddService.keep (uuid : GUID) (characteristic : Nat) (char : CharacteristicConfig)
    (goChars : Registry) (w : World) : Registry × World :=
  match char.Handle with
  | some handle =>
    let w := w.update handle fun ch => { ch with wintCharacteristic := some characteristic }
    let w := w.setValue handle char.Value
    let w := w.update handle fun ch => { ch with valueMtx := some { locked := false } }
    let w := w.update handle fun ch => { ch with flags := char.Flags }
    (goChars.insert uuid handle, w)
  | none => (goChars, w)

/-- The body of `for _, char := range s.Characteristics`; `next` is the rest of the
function after this iteration.  The conversion `syscallUUIDFromUUID` relies on helpers
declared in another file of the package and is a parameter. -/
def AddService.body (syscallUUIDFromUUID : UUID → GUID) (ce : CharEnv)
    (char : CharacteristicConfig) (goChars : Registry) (w : World)
    (next : Registry → World → Added) : Added :=
  let fail : Error → World → Added := fun err w => ⟨some err, goChars, w⟩
  attempt .NewGattLocalCharacteristicParameters ce.newParameters w fail fun w =>
  attempt (.SetCharacteristicProperties char.Flags) ce.setProperties w fail fun w =>
  let uuid := syscallUUIDFromUUID char.UUID
  attempt (.CreateCharacteristicAsync uuid) ce.createAsync w fail fun w =>
  attempt .awaitCharacteristic ce.await w fail fun w =>
  attempt .getResultsCharacteristic ce.getResults w fail fun w =>
  attempt .GetCharacteristic ce.getCharacteristic w fail fun w =>
  let characteristic := ce.characteristic
  attempt .AddWriteRequested ce.addWriteRequested w fail fun w =>
  attempt .AddReadRequested ce.addReadRequested w fail fun w =>
  let kept := AddService.keep uuid characteristic char goChars w
  next kept.1 kept.2

/-- The part of `AddService` after the loop. -/
def AddService.advertise (env : ServiceEnv) (goChars : Registry) (w : World) : Added :=
  let fail : Error → World → Added := fun err w => ⟨some err, goChars, w⟩
  attempt .NewGattServiceProviderAdvertisingParameters env.newAdvertisingParameters w fail
    fun w =>
  attempt (.SetIsConnectable true) env.setIsConnectable w fail fun w =>
  attempt (.SetIsDiscoverable true) env.setIsDiscoverable w fail fun w =>
  attempt .StartAdvertisingWithParameters env.startAdvertising w fail fun w =>
  ⟨none, goChars, w⟩

/-- The loop over `s.Characteristics` from iteration `i` on, then the rest of the
function. -/
def AddService.loop (syscallUUIDFromUUID : UUID → GUID) (env : ServiceEnv) :
    Nat → List CharacteristicConfig → Registry → World → Added
  | _, [], goChars, w => AddService.advertise env goChars w
  | i, char :: rest, goChars, w =>
    AddService.body syscallUUIDFromUUID (env.chars i) char goChars w fun goChars w =>
      AddService.loop syscallUUIDFromUUID env (i + 1) rest goChars w

/-- The method `Adapter.AddService`. -/
def AddService (syscallUUIDFromUUID : UUID → GUID) (env : ServiceEnv) (s : Service)
    (w : World) : Added :=
  let goChars : Registry := fun _ => none
  let fail : Error → World → Added := fun err w => ⟨some err, goChars, w⟩
  attempt (.GattServiceProviderCreateAsync (syscallUUIDFromUUID s.UUID)) env.createAsync w fail
    fun w =>
  attempt .awaitServiceProvider env.await w fail fun w =>
  attempt .getResultsServiceProvider env.getResults w fail fun w =>
  attempt .GetServiceProvider env.getServiceProvider w fail fun w =>
  attempt .GetService env.getService w fail fun w =>
  AddService.loop syscallUUIDFromUUID env 0 s.Characteristics goChars w

/-! ## Vocabulary for the statements about `Characteristic.Write` -/

/-- The error of the first native call of the notification that fails, in program order. -/
def NotifyEnv.firstFailure (env : NotifyEnv) : Option Error :=
  env.newDataWriter <|> env.writeBytes <|> env.detachBuffer <|> env.notifyValueAsync <|>
    env.await <|> env.getResults

/-- A characteristic bound by `AddService` and not in use: its mutex exists and is free, its
native characteristic is set. -/
def Bound (ch : Characteristic) : Prop :=
  ch.valueMtx = some { locked := false } ∧ ch.wintCharacteristic.isSome = true

instance (ch : Characteristic) : Decidable (Bound ch) := by
  unfold Bound; infer_instance

/-- A world with one bound characteristic at address 0 (flags 16, native characteristic 7,
value `v`, no callback) and an empty trace. -/
def sampleWorld (v : Bytes) : World :=
  { heap := fun a =>
      if a = 0 then
        { wintCharacteristic := some 7, writeEvent := none, flags := 16,
          valueMtx := some { locked := false }, value := v }
      else Characteristic.zero
    trace := [] }

/-- Native calls of a notification that all succeed. -/
def NotifyEnv.ok : NotifyEnv :=
  { newDataWriter := none, writeBytes := none, detachBuffer := none, notifyValueAsync := none,
    await := none, getResults := none }

/-- The callback `Write` runs before it takes the mutex. -/
def Write.callback (ch : Characteristic) (p : Bytes) : List Effect :=
  match ch.writeEvent with
  | some f => [.writeEvent f 0 0 p]
  | none => []

/-! ## Vocabulary for the statements about the request handlers -/

/-- Every native call the read handler makes for this request succeeds. -/
def ReadRequestedEvent.succeeds (ev : ReadRequestedEvent) : Prop :=
  ev.getRequestAsync = none ∧ ev.await = none ∧ ev.getResults = none ∧ ev.getUuid = none ∧
    ev.newDataWriter = none ∧ ev.writeBytes = none ∧ ev.detachBuffer = none

instance (ev : ReadRequestedEvent) : Decidable ev.succeeds := by
  unfold ReadRequestedEvent.succeeds; infer_instance

/-- A read request for `uuid` whose native calls all succeed. -/
def ReadRequestedEvent.ok (uuid : GUID) : ReadRequestedEvent :=
  { getRequestAsync := none, await := none, getResults := none, getUuid := none, uuid := uuid,
    newDataWriter := none, writeBytes := none, detachBuffer := none }

/-- The effects of a read request that is answered with `buf` from the characteristic at `c`
holding `value`. -/
def readEffects (c : Nat) (value buf : Bytes) : List Effect :=
  [.native .GetRequestAsync, .native .awaitRequest, .native .getResultsRequest,
   .native .GetUuid, .native .NewDataWriter, .lock c] ++
  (if value.length > 0 then [Effect.native (.WriteBytes (uint32 value.length) value)] else []) ++
  [.native .DetachBuffer, .native (.RespondWithValue buf), .native .releaseBuffer, .unlock c,
   .native .releaseWriter]

/-- The native calls with which the write handler fetches a request. -/
def writeFetch : List NativeOp :=
  [.GetRequestAsync, .awaitRequest, .getResultsRequest, .GetValue, .GetOffset, .GetUuid]

/-- The native calls with which the read handler fetches a request. -/
def readFetch : List NativeOp :=
  [.GetRequestAsync, .awaitRequest, .getResultsRequest, .GetUuid]

/-- Every native call the write handler makes for this request succeeds. -/
def WriteRequestedEvent.succeeds (ev : WriteRequestedEvent) : Prop :=
  ev.getRequestAsync = none ∧ ev.await = none ∧ ev.getResults = none ∧ ev.getValue = none ∧
    ev.getOffset = none ∧ ev.getUuid = none

instance (ev : WriteRequestedEvent) : Decidable ev.succeeds := by
  unfold WriteRequestedEvent.succeeds; infer_instance

/-- A write request for `uuid` with the given offset and payload whose native calls all
succeed. -/
def WriteRequestedEvent.ok (uuid : GUID) (offset : Nat) (value : Bytes) : WriteRequestedEvent :=
  { getRequestAsync := none, await := none, getResults := none, getValue := none,
    value := value, getOffset := none, offset := offset, getUuid := none, uuid := uuid }

/-! ## Vocabulary for the statements about `AddService` -/

/-- A native call together with its outcome. -/
abbrev Step := NativeOp × Option Error

/-- The error of the first step that fails. -/
def firstFailure : List Step → Option Error
  | [] => none
  | (_, some err) :: _ => some err
  | (_, none) :: rest => firstFailure rest

/-- The calls that are made when the steps run in order and stop at the first failure. -/
def performed : List Step → List NativeOp
  | [] => []
  | (op, some _) :: _ => [op]
  | (op, none) :: rest => op :: performed rest

/-- The native calls in a trace. -/
def nativeCalls (t : List Effect) : List NativeOp :=
  t.filterMap fun e => match e with
    | .native op => some op
    | _ => none

/-- The native steps of one iteration of the loop, in program order. -/
def AddService.bodySteps (syscallUUIDFromUUID : UUID → GUID) (ce : CharEnv)
    (char : CharacteristicConfig) : List Step :=
  [(.NewGattLocalCharacteristicParameters, ce.newParameters),
   (.SetCharacteristicProperties char.Flags, ce.setProperties),
   (.CreateCharacteristicAsync (syscallUUIDFromUUID char.UUID), ce.createAsync),
   (.awaitCharacteristic, ce.await),
   (.getResultsCharacteristic, ce.getResults),
   (.GetCharacteristic, ce.getCharacteristic),
   (.AddWriteRequested, ce.addWriteRequested),
   (.AddReadRequested, ce.addReadRequested)]

/-- The native steps of the loop from iteration `i` on. -/
def AddService.loopSteps (syscallUUIDFromUUID : UUID → GUID) (env : ServiceEnv) :
    Nat → List CharacteristicConfig → List Step
  | _, [] => []
  | i, char :: rest =>
    AddService.bodySteps syscallUUIDFromUUID (env.chars i) char ++
      AddService.loopSteps syscallUUIDFromUUID env (i + 1) rest

/-- The native steps after the loop; the last one starts advertising. -/
def AddService.advertiseSteps (env : ServiceEnv) : List Step :=
  [(.NewGattServiceProviderAdvertisingParameters, env.newAdvertisingParameters),
   (.SetIsConnectable true, env.setIsConnectable),
   (.SetIsDiscoverable true, env.setIsDiscoverable),
   (.StartAdvertisingWithParameters, env.startAdvertising)]

/-- The native steps before the loop, which create the service. -/
def AddService.createSteps (syscallUUIDFromUUID : UUID → GUID) (env : ServiceEnv)
    (s : Service) : List Step :=
  [(.GattServiceProviderCreateAsync (syscallUUIDFromUUID s.UUID), env.createAsync),
   (.awaitServiceProvider, env.await),
   (.getResultsServiceProvider, env.getResults),
   (.GetServiceProvider, env.getServiceProvider),
   (.GetService, env.getService)]

/-- All native steps of `AddService`, in program order. -/
def AddService.steps (syscallUUIDFromUUID : UUID → GUID) (env : ServiceEnv) (s : Service) :
    List Step :=
  AddService.createSteps syscallUUIDFromUUID env s ++
    (AddService.loopSteps syscallUUIDFromUUID env 0 s.Characteristics ++
      AddService.advertiseSteps env)

/-- The struct a descriptor with a `Handle` is bound to: native characteristic, value, a free
mutex and flags are set; the callback field is left as it was. -/
def boundStruct (before : Characteristic) (characteristic : Nat)
    (char : CharacteristicConfig) : Characteristic :=
  { wintCharacteristic := some characteristic, writeEvent := before.writeEvent,
    flags := char.Flags, valueMtx := some { locked := false }, value := char.Value }

/-- The buffers with which read requests were answered, in order. -/
def responses (t : List Effect) : List Bytes :=
  t.filterMap fun e => match e with
    | .native (.RespondWithValue buf) => some buf
    | _ => none

/-- The callbacks that were invoked, in order, with their arguments. -/
def callbacks (t : List Effect) : List (Nat × Nat × Int × Bytes) :=
  t.filterMap fun e => match e with
    | .writeEvent f client offset value => some (f, client, offset, value)
    | _ => none

/-! ## Sample inputs -/

/-- A conversion from UUIDs to GUIDs, for the examples. -/
def sampleConv : UUID → GUID := fun u => { Data1 := u, Data2 := 0, Data3 := 0, Data4 := [] }

/-- A map with the one entry `sampleConv 1 ↦ 0`. -/
def sampleRegistry : Registry := fun g => if g = sampleConv 1 then some 0 else none

/-- A world whose structs all have the zero value. -/
def emptyWorld : World := { heap := fun _ => Characteristic.zero, trace := [] }

/-- A value of `2^32` bytes. -/
def hugeValue : Bytes := List.replicate (2 ^ 32) 0

/-- Native calls of an iteration that all succeed and hand out the native characteristic
`n`. -/
def CharEnv.ok (n : Nat) : CharEnv :=
  { newParameters := none, setProperties := none, createAsync := none, await := none,
    getResults := none, getCharacteristic := none, characteristic := n,
    addWriteRequested := none, addReadRequested := none }

/-- Native calls of `AddService` that all succeed; iteration `i` hands out the native
characteristic `i`. -/
def ServiceEnv.ok : ServiceEnv :=
  { createAsync := none, await := none, getResults := none, getServiceProvider := none,
    getService := none, chars := fun i => CharEnv.ok i, newAdvertisingParameters := none,
    setIsConnectable := none, setIsDiscoverable := none, startAdvertising := none }

/-- A service with one descriptor that has UUID 1, no `Handle` and the initial value
`[1, 2]`. -/
def serviceWithoutHandle : Service :=
  { UUID := 100,
    Characteristics :=
      [{ Handle := none, UUID := 1, Value := [1, 2], Flags := 2, WriteEvent := none }] }

/-- A descriptor with UUID 1, the `Handle` 0, the initial value `[7]` and the write
callback 9. -/
def descriptorWithCallback : CharacteristicConfig :=
  { Handle := some 0, UUID := 1, Value := [7], Flags := 8, WriteEvent := some 9 }

/-- A service with the one descriptor `descriptorWithCallback`. -/
def serviceWithCallback : Service :=
  { UUID := 100, Characteristics := [descriptorWithCallback] }

/-- A descriptor with UUID 5 and no `Handle`. -/
def descriptorWithoutHandle : CharacteristicConfig :=
  { Handle := none, UUID := 5, Value := [1], Flags := 2, WriteEvent := none }

/-- A descriptor with UUID 2 and the `Handle` 1. -/
def descriptorOther : CharacteristicConfig :=
  { Handle := some 1, UUID := 2, Value := [8], Flags := 2, WriteEvent := none }

/-- A service with three descriptors. -/
def serviceWithThree : Service :=
  { UUID := 100,
    Characteristics := [descriptorWithoutHandle, descriptorWithCallback, descriptorOther] }

/-- A service with two descriptors, both with a `Handle`. -/
def serviceWithTwo : Service :=
  { UUID := 100,
    Characteristics :=
      [{ Handle := some 0, UUID := 1, Value := [7], Flags := 8, WriteEvent := none },
       { Handle := some 1, UUID := 2, Value := [8], Flags := 2, WriteEvent := none }] }

/-- Native calls that succeed, except that awaiting the creation of the second
characteristic fails with error 3. -/
def ServiceEnv.secondAwaitFails : ServiceEnv :=
  { ServiceEnv.ok with
    chars := fun i => if i = 1 then { CharEnv.ok i with await := some 3 } else CharEnv.ok i }

/-- What the notification part of `Write` does on a characteristic whose native
characteristic is set: it returns the length with the first failure, leaves the heap alone
and appends native calls only, none when the flag is unset and at least the creation of the
writer when it is set. -/
theorem Write.notify_spec (N : Nat) (env : NotifyEnv) (c : Nat) (p : Bytes) (w : World)
    (hn : (w.heap c).wintCharacteristic.isSome = true) :
    ∃ mid : List Effect,
      Write.notify N env c p w =
        .returned (p.length, if (w.heap c).flags &&& N ≠ 0 then env.firstFailure else none)
          { heap := w.heap, trace := w.trace ++ mid } ∧
      (∀ e ∈ mid, ∃ op, e = Effect.native op) ∧
      ((w.heap c).flags &&& N = 0 → mid = []) ∧
      ((w.heap c).flags &&& N ≠ 0 → ∃ rest, mid = Effect.native .NewDataWriter :: rest) := by
  obtain ⟨n, hn⟩ := Option.isSome_iff_exists.mp hn
  by_cases hf : (w.heap c).flags &&& N = 0
  · exact ⟨[], by simp [Write.notify, hf]⟩
  rcases env with ⟨e1, e2, e3, e4, e5, e6⟩
  rcases e1 with _ | e1
  swap
  · exact ⟨[.native .NewDataWriter], by
      simp [Write.notify, attempt, Outcome.defer, World.emit, NotifyEnv.firstFailure, hn, hf]⟩
  rcases e2 with _ | e2
  swap
  · exact ⟨[.native .NewDataWriter, .native (.WriteBytes (uint32 p.length) p),
      .native .releaseWriter], by
      simp [Write.notify, attempt, Outcome.defer, World.emit, NotifyEnv.firstFailure, hn, hf]⟩
  rcases e3 with _ | e3
  swap
  · exact ⟨[.native .NewDataWriter, .native (.WriteBytes (uint32 p.length) p),
      .native .DetachBuffer, .native .releaseWriter], by
      simp [Write.notify, attempt, Outcome.defer, World.emit, NotifyEnv.firstFailure, hn, hf]⟩
  rcases e4 with _ | e4
  swap
  · exact ⟨[.native .NewDataWriter, .native (.WriteBytes (uint32 p.length) p),
      .native .DetachBuffer, .native (.NotifyValueAsync n (p.take (uint32 p.length))),
      .native .releaseBuffer, .native .releaseWriter], by
      simp [Write.notify, attempt, Outcome.defer, World.emit, NotifyEnv.firstFailure, hn, hf]⟩
  rcases e5 with _ | e5
  swap
  · exact ⟨[.native .NewDataWriter, .native (.WriteBytes (uint32 p.length) p),
      .native .DetachBuffer, .native (.NotifyValueAsync n (p.take (uint32 p.length))),
      .native .awaitNotify, .native .releaseBuffer, .native .releaseWriter], by
      simp [Write.notify, attempt, Outcome.defer, World.emit, NotifyEnv.firstFailure, hn, hf]⟩
  rcases e6 with _ | e6
  swap
  · exact ⟨[.native .NewDataWriter, .native (.WriteBytes (uint32 p.length) p),
      .native .DetachBuffer, .native (.NotifyValueAsync n (p.take (uint32 p.length))),
      .native .awaitNotify, .native .getResultsNotify, .native .releaseOp,
      .native .releaseBuffer, .native .releaseWriter], by
      simp [Write.notify, attempt, Outcome.defer, World.emit, NotifyEnv.firstFailure, hn, hf]⟩
  · exact ⟨[.native .NewDataWriter, .native (.WriteBytes (uint32 p.length) p),
      .native .DetachBuffer, .native (.NotifyValueAsync n (p.take (uint32 p.length))),
      .native .awaitNotify, .native .getResultsNotify, .native .releaseVector,
      .native .releaseOp, .native .releaseBuffer, .native .releaseWriter], by
      simp [Write.notify, attempt, Outcome.defer, World.emit, NotifyEnv.firstFailure, hn, hf]⟩

/-- What `Write` does with a non-empty input on a bound characteristic: it returns the
length with the first failure of the notification; the heap changes in the value of that
characteristic only; the trace grows by the callback, the lock, the store, the native calls
of the notification and the unlock, in this order. -/
theorem Write_spec (N : Nat) (env : NotifyEnv) (c : Nat) (p : Bytes) (w : World)
    (hp : p ≠ []) (hb : Bound (w.heap c)) :
    ∃ mid : List Effect,
      Write N env c p w =
        .returned (p.length, if (w.heap c).flags &&& N ≠ 0 then env.firstFailure else none)
          { heap := fun a => if a = c then { w.heap c with value := p } else w.heap a,
            trace := w.trace ++ Write.callback (w.heap c) p ++
              [Effect.lock c, Effect.store c p] ++ mid ++ [Effect.unlock c] } ∧
      (∀ e ∈ mid, ∃ op, e = Effect.native op) ∧
      ((w.heap c).flags &&& N = 0 → mid = []) ∧
      ((w.heap c).flags &&& N ≠ 0 → ∃ rest, mid = Effect.native .NewDataWriter :: rest) := by
  obtain ⟨hm, hn⟩ := hb
  have hlen : p.length ≠ 0 := by simpa using hp
  -- the world in which the notification starts
  let w2 : World :=
    { heap := fun a =>
        if a = c then { w.heap c with valueMtx := some { locked := true }, value := p }
        else w.heap a,
      trace := w.trace ++ Write.callback (w.heap c) p ++ [Effect.lock c, Effect.store c p] }
  have hn2 : (w2.heap c).wintCharacteristic.isSome = true := by simpa [w2] using hn
  have hfl : (w2.heap c).flags = (w.heap c).flags := by simp [w2]
  obtain ⟨mid, hrun, h1, h2, h3⟩ := Write.notify_spec N env c p w2 hn2
  rw [hfl] at hrun h2 h3
  refine ⟨mid, ?_, h1, h2, h3⟩
  have hw2 : ∀ w0 : World, w0.heap = w.heap →
      w0.trace = w.trace ++ Write.callback (w.heap c) p →
      withLock c w0 (fun w =>
        Outcome.defer (Write.notify N env c p (w.setValue c p)) (unlockMtx c)) =
      .returned (p.length, if (w.heap c).flags &&& N ≠ 0 then env.firstFailure else none)
          { heap := fun a => if a = c then { w.heap c with value := p } else w.heap a,
            trace := w.trace ++ Write.callback (w.heap c) p ++
              [Effect.lock c, Effect.store c p] ++ mid ++ [Effect.unlock c] } := by
    intro w0 hh ht
    have : World.setValue (World.emit
        (w0.update c fun ch => { ch with valueMtx := some { locked := true } }) (.lock c)) c p
        = w2 := by
      simp only [World.setValue, World.update, World.emit, w2, hh, ht]
      congr 1
      · funext a
        by_cases ha : a = c <;> simp [ha]
      · simp
    simp only [withLock, hh, hm]
    simp only [Bool.false_eq_true, if_false]
    rw [this, hrun]
    simp only [Outcome.defer, unlockMtx, World.update, World.emit, w2]
    congr 1
    congr 1
    funext a
    by_cases ha : a = c
    · subst ha
      simp
    · simp [ha]
  cases hcb : (w.heap c).writeEvent with
  | none =>
    have := hw2 w rfl (by simp [Write.callback, hcb])
    simpa [Write, hlen, hcb] using this
  | some f =>
    have := hw2 (w.emit (.writeEvent f 0 0 p)) rfl (by simp [Write.callback, hcb, World.emit])
    simpa [Write, hlen, hcb] using this

/-- What the read handler does for a registered characteristic whose mutex is free when all
native calls succeed: it answers with the first `uint32(len(value))` bytes of the value and
leaves the heap as it was. -/
theorem readRequestedHandler_spec (goChars : Registry) (ev : ReadRequestedEvent) (w : World)
    (c : Nat) (hreg : goChars ev.uuid = some c)
    (hm : (w.heap c).valueMtx = some { locked := false }) (hok : ev.succeeds) :
    readRequestedHandler goChars ev w =
      .returned ()
        { heap := w.heap,
          trace := w.trace ++
            readEffects c (w.heap c).value
              ((w.heap c).value.take (uint32 (w.heap c).value.length)) } := by
  obtain ⟨h1, h2, h3, h4, h5, h6, h7⟩ := hok
  have hheap : ∀ a, (if a = c then
      ({ wintCharacteristic := (w.heap a).wintCharacteristic, writeEvent := (w.heap a).writeEvent,
         flags := (w.heap a).flags, valueMtx := some { locked := false },
         value := (w.heap a).value } : Characteristic) else w.heap a) = w.heap a := by
    intro a
    by_cases ha : a = c
    · subst ha
      simp [← hm]
    · simp [ha]
  by_cases hv : (w.heap c).value = []
  · simp [readRequestedHandler, attempt, withLock, Outcome.defer, unlockMtx, World.emit,
      World.update, readEffects, h1, h2, h3, h4, h5, h6, h7, hreg, hm, hv]
    funext a
    by_cases ha : a = c
    · simpa [ha] using hheap c
    · simp [ha]
  · have hpos : 0 < (w.heap c).value.length := List.length_pos.mpr hv
    simp [readRequestedHandler, attempt, withLock, Outcome.defer, unlockMtx, World.emit,
      World.update, readEffects, h1, h2, h3, h4, h5, h6, h7, hreg, hm, hv, hpos]
    funext a
    by_cases ha : a = c
    · simpa [ha] using hheap c
    · simp [ha]

/-- The write handler always returns, never changes the heap, and appends to the trace some of
its fetch calls followed by at most one callback; the callback is the one stored in the
registered struct and runs only after every fetch call succeeded. -/
theorem writeRequestedHandler_spec (goChars : Registry) (ev : WriteRequestedEvent) (w : World) :
    ∃ (calls : List NativeOp) (cb : List Effect),
      writeRequestedHandler goChars ev w =
        .returned () { heap := w.heap, trace := w.trace ++ calls.map Effect.native ++ cb } ∧
      (∀ op ∈ calls, op ∈ writeFetch) ∧
      (cb = [] ∨ (ev.succeeds ∧ ∃ c f, goChars ev.uuid = some c ∧
        (w.heap c).writeEvent = some f ∧
        cb = [Effect.writeEvent f 0 (Int.ofNat ev.offset) ev.value])) ∧
      (goChars ev.uuid = none → cb = []) := by
  rcases ev with ⟨e1, e2, e3, e4, value, e5, offset, e6, uuid⟩
  rcases e1 with _ | e1
  swap
  · exact ⟨[.GetRequestAsync], [], by
      simp [writeRequestedHandler, attempt, World.emit, writeFetch]⟩
  rcases e2 with _ | e2
  swap
  · exact ⟨[.GetRequestAsync, .awaitRequest], [], by
      simp [writeRequestedHandler, attempt, World.emit, writeFetch]⟩
  rcases e3 with _ | e3
  swap
  · exact ⟨[.GetRequestAsync, .awaitRequest, .getResultsRequest], [], by
      simp [writeRequestedHandler, attempt, World.emit, writeFetch]⟩
  rcases e4 with _ | e4
  swap
  · exact ⟨[.GetRequestAsync, .awaitRequest, .getResultsRequest, .GetValue], [], by
      simp [writeRequestedHandler, attempt, World.emit, writeFetch]⟩
  rcases e5 with _ | e5
  swap
  · exact ⟨[.GetRequestAsync, .awaitRequest, .getResultsRequest, .GetValue, .GetOffset], [], by
      simp [writeRequestedHandler, attempt, World.emit, writeFetch]⟩
  rcases e6 with _ | e6
  swap
  · exact ⟨writeFetch, [], by
      simp [writeRequestedHandler, attempt, World.emit, writeFetch]⟩
  cases hreg : goChars uuid with
  | none =>
    exact ⟨writeFetch, [], by
      simp [writeRequestedHandler, attempt, World.emit, writeFetch, hreg]⟩
  | some c =>
    cases hcb : (w.heap c).writeEvent with
    | none =>
      exact ⟨writeFetch, [], by
        simp [writeRequestedHandler, attempt, World.emit, writeFetch, hreg, hcb]⟩
    | some f =>
      exact ⟨writeFetch, [Effect.writeEvent f 0 (Int.ofNat offset) value], by
        simp [writeRequestedHandler, attempt, World.emit, writeFetch, hreg, hcb,
          WriteRequestedEvent.succeeds]⟩

/-- A read request for a GUID that is not in the registry: the handler returns after some of
its fetch calls and changes nothing else. -/
theorem readRequestedHandler_miss (goChars : Registry) (ev : ReadRequestedEvent) (w : World)
    (hreg : goChars ev.uuid = none) :
    ∃ calls : List NativeOp,
      readRequestedHandler goChars ev w =
        .returned () { heap := w.heap, trace := w.trace ++ calls.map Effect.native } ∧
      (∀ op ∈ calls, op ∈ readFetch) := by
  rcases ev with ⟨e1, e2, e3, e4, uuid, e5, e6, e7⟩
  rcases e1 with _ | e1
  swap
  · exact ⟨[.GetRequestAsync], by
      simp [readRequestedHandler, attempt, World.emit, readFetch]⟩
  rcases e2 with _ | e2
  swap
  · exact ⟨[.GetRequestAsync, .awaitRequest], by
      simp [readRequestedHandler, attempt, World.emit, readFetch]⟩
  rcases e3 with _ | e3
  swap
  · exact ⟨[.GetRequestAsync, .awaitRequest, .getResultsRequest], by
      simp [readRequestedHandler, attempt, World.emit, readFetch]⟩
  rcases e4 with _ | e4
  swap
  · exact ⟨readFetch, by
      simp [readRequestedHandler, attempt, World.emit, readFetch]⟩
  · simp only at hreg
    exact ⟨readFetch, by
      simp [readRequestedHandler, attempt, World.emit, readFetch, hreg]⟩

theorem firstFailure_append_of_some {a : List Step} {e : Error} (b : List Step)
    (h : firstFailure a = some e) : firstFailure (a ++ b) = some e := by
  induction a with
  | nil => simp [firstFailure] at h
  | cons x a ih =>
    rcases x with ⟨op, _ | err⟩
    · simpa [firstFailure] using ih (by simpa [firstFailure] using h)
    · simpa [firstFailure] using h

theorem firstFailure_append_of_none {a : List Step} (b : List Step)
    (h : firstFailure a = none) : firstFailure (a ++ b) = firstFailure b := by
  induction a with
  | nil => rfl
  | cons x a ih =>
    rcases x with ⟨op, _ | err⟩
    · simpa [firstFailure] using ih (by simpa [firstFailure] using h)
    · simp [firstFailure] at h

theorem performed_append_of_some {a : List Step} {e : Error} (b : List Step)
    (h : firstFailure a = some e) : performed (a ++ b) = performed a := by
  induction a with
  | nil => simp [firstFailure] at h
  | cons x a ih =>
    rcases x with ⟨op, _ | err⟩
    · simpa [performed] using ih (by simpa [firstFailure] using h)
    · simp [performed]

theorem performed_append_of_none {a : List Step} (b : List Step)
    (h : firstFailure a = none) :
    performed (a ++ b) = a.map Prod.fst ++ performed b := by
  induction a with
  | nil => rfl
  | cons x a ih =>
    rcases x with ⟨op, _ | err⟩
    · simpa [performed] using ih (by simpa [firstFailure] using h)
    · simp [firstFailure] at h

theorem nativeCalls_append (a b : List Effect) :
    nativeCalls (a ++ b) = nativeCalls a ++ nativeCalls b := by
  simp [nativeCalls]

theorem nativeCalls_map_native (ops : List NativeOp) :
    nativeCalls (ops.map Effect.native) = ops := by
  induction ops with
  | nil => rfl
  | cons op ops ih => simpa [nativeCalls] using ih

/-- The block that keeps the struct makes no native call and leaves the structs at other
addresses alone. -/
theorem AddService.keep_nativeCalls (uuid : GUID) (n : Nat) (char : CharacteristicConfig)
    (goChars : Registry) (w : World) :
    nativeCalls (AddService.keep uuid n char goChars w).2.trace = nativeCalls w.trace := by
  cases h : char.Handle <;>
    simp [AddService.keep, h, World.setValue, World.update, World.emit, nativeCalls]

/-- One iteration of the loop: either one of its native steps fails, and the function
returns that error after the calls made so far with the heap and the map untouched, or all
succeed and the function goes on after the block that keeps the struct. -/
theorem AddService.body_cases (conv : UUID → GUID) (ce : CharEnv) (char : CharacteristicConfig)
    (goChars : Registry) (w : World) :
    (∃ e, firstFailure (AddService.bodySteps conv ce char) = some e ∧
      ∀ next, AddService.body conv ce char goChars w next =
        ⟨some e, goChars,
          { heap := w.heap,
            trace := w.trace ++
              (performed (AddService.bodySteps conv ce char)).map Effect.native }⟩) ∨
    (firstFailure (AddService.bodySteps conv ce char) = none ∧
      ∀ next, AddService.body conv ce char goChars w next =
        next
          (AddService.keep (conv char.UUID) ce.characteristic char goChars
            { heap := w.heap,
              trace := w.trace ++
                ((AddService.bodySteps conv ce char).map Prod.fst).map Effect.native }).1
          (AddService.keep (conv char.UUID) ce.characteristic char goChars
            { heap := w.heap,
              trace := w.trace ++
                ((AddService.bodySteps conv ce char).map Prod.fst).map Effect.native }).2) := by
  rcases ce with ⟨e1, e2, e3, e4, e5, e6, n, e7, e8⟩
  rcases e1 with _ | e1
  swap
  · exact Or.inl ⟨e1, by
      simp [AddService.body, AddService.bodySteps, attempt, World.emit, firstFailure, performed]⟩
  rcases e2 with _ | e2
  swap
  · exact Or.inl ⟨e2, by
      simp [AddService.body, AddService.bodySteps, attempt, World.emit, firstFailure, performed]⟩
  rcases e3 with _ | e3
  swap
  · exact Or.inl ⟨e3, by
      simp [AddService.body, AddService.bodySteps, attempt, World.emit, firstFailure, performed]⟩
  rcases e4 with _ | e4
  swap
  · exact Or.inl ⟨e4, by
      simp [AddService.body, AddService.bodySteps, attempt, World.emit, firstFailure, performed]⟩
  rcases e5 with _ | e5
  swap
  · exact Or.inl ⟨e5, by
      simp [AddService.body, AddService.bodySteps, attempt, World.emit, firstFailure, performed]⟩
  rcases e6 with _ | e6
  swap
  · exact Or.inl ⟨e6, by
      simp [AddService.body, AddService.bodySteps, attempt, World.emit, firstFailure, performed]⟩
  rcases e7 with _ | e7
  swap
  · exact Or.inl ⟨e7, by
      simp [AddService.body, AddService.bodySteps, attempt, World.emit, firstFailure, performed]⟩
  rcases e8 with _ | e8
  swap
  · exact Or.inl ⟨e8, by
      simp [AddService.body, AddService.bodySteps, attempt, World.emit, firstFailure, performed]⟩
  · exact Or.inr (by
      simp [AddService.body, AddService.bodySteps, attempt, World.emit, firstFailure])

/-- The part after the loop returns the first failure of its steps, makes the calls up to
it, and changes neither the heap nor the map. -/
theorem AddService.advertise_spec (env : ServiceEnv) (goChars : Registry) (w : World) :
    AddService.advertise env goChars w =
      ⟨firstFailure (AddService.advertiseSteps env), goChars,
        { heap := w.heap,
          trace := w.trace ++ (performed (AddService.advertiseSteps env)).map Effect.native }⟩ := by
  rcases env with ⟨_, _, _, _, _, _, e1, e2, e3, e4⟩
  rcases e1 with _ | e1 <;> rcases e2 with _ | e2 <;> rcases e3 with _ | e3 <;>
    rcases e4 with _ | e4 <;>
    simp [AddService.advertise, AddService.advertiseSteps, attempt, World.emit, firstFailure,
      performed]

/-- The loop and the rest of the function return the first failure of their steps and make
exactly the native calls up to it. -/
theorem AddService.loop_spec (conv : UUID → GUID) (env : ServiceEnv)
    (cs : List CharacteristicConfig) :
    ∀ (i : Nat) (goChars : Registry) (w : World),
      (AddService.loop conv env i cs goChars w).err =
        firstFailure (AddService.loopSteps conv env i cs ++ AddService.advertiseSteps env) ∧
      nativeCalls (AddService.loop conv env i cs goChars w).world.trace =
        nativeCalls w.trace ++
          performed (AddService.loopSteps conv env i cs ++ AddService.advertiseSteps env) := by
  induction cs with
  | nil =>
    intro i goChars w
    simp [AddService.loop, AddService.loopSteps, AddService.advertise_spec, nativeCalls_append,
      nativeCalls_map_native]
  | cons char rest ih =>
    intro i goChars w
    rcases AddService.body_cases conv (env.chars i) char goChars w with ⟨e, hfail, hrun⟩ | ⟨hok, hrun⟩
    · simp only [AddService.loop, AddService.loopSteps, hrun, List.append_assoc]
      rw [firstFailure_append_of_some _ hfail, performed_append_of_some _ hfail]
      simp [nativeCalls_append, nativeCalls_map_native]
    · simp only [AddService.loop, AddService.loopSteps, hrun, List.append_assoc]
      rw [firstFailure_append_of_none _ hok, performed_append_of_none _ hok]
      obtain ⟨h1, h2⟩ := ih (i + 1)
        (AddService.keep (conv char.UUID) (env.chars i).characteristic char goChars
          { heap := w.heap,
            trace := w.trace ++
              ((AddService.bodySteps conv (env.chars i) char).map Prod.fst).map Effect.native }).1
        (AddService.keep (conv char.UUID) (env.chars i).characteristic char goChars
          { heap := w.heap,
            trace := w.trace ++
              ((AddService.bodySteps conv (env.chars i) char).map Prod.fst).map Effect.native }).2
      refine ⟨h1, ?_⟩
      rw [h2, AddService.keep_nativeCalls]
      simp only [nativeCalls_append, nativeCalls_map_native, List.append_assoc]

/-- The whole of `AddService` returns the first failure of its native steps and makes exactly
the native calls up to it. -/
theorem AddService_spec (conv : UUID → GUID) (env : ServiceEnv) (s : Service) (w : World) :
    (AddService conv env s w).err = firstFailure (AddService.steps conv env s) ∧
    nativeCalls (AddService conv env s w).world.trace =
      nativeCalls w.trace ++ performed (AddService.steps conv env s) := by
  have hloop := AddService.loop_spec conv env s.Characteristics 0 (fun _ => none)
  rcases h1 : env.createAsync with _ | e1
  swap
  · simp [AddService, AddService.steps, AddService.createSteps, attempt, World.emit,
      firstFailure, performed, h1, nativeCalls_append, nativeCalls]
  rcases h2 : env.await with _ | e2
  swap
  · simp [AddService, AddService.steps, AddService.createSteps, attempt, World.emit,
      firstFailure, performed, h1, h2, nativeCalls_append, nativeCalls]
  rcases h3 : env.getResults with _ | e3
  swap
  · simp [AddService, AddService.steps, AddService.createSteps, attempt, World.emit,
      firstFailure, performed, h1, h2, h3, nativeCalls_append, nativeCalls]
  rcases h4 : env.getServiceProvider with _ | e4
  swap
  · simp [AddService, AddService.steps, AddService.createSteps, attempt, World.emit,
      firstFailure, performed, h1, h2, h3, h4, nativeCalls_append, nativeCalls]
  rcases h5 : env.getService with _ | e5
  swap
  · simp [AddService, AddService.steps, AddService.createSteps, attempt, World.emit,
      firstFailure, performed, h1, h2, h3, h4, h5, nativeCalls_append, nativeCalls]
  · obtain ⟨ha, hb⟩ := hloop
      (((((w.emit (.native (.GattServiceProviderCreateAsync (conv s.UUID)))).emit
        (.native .awaitServiceProvider)).emit (.native .getResultsServiceProvider)).emit
        (.native .GetServiceProvider)).emit (.native .GetService))
    simp only [AddService, AddService.steps, AddService.createSteps, attempt, h1, h2, h3, h4, h5]
    refine ⟨by simpa [firstFailure] using ha, ?_⟩
    rw [hb]
    simp [World.emit, nativeCalls_append, nativeCalls, performed]

theorem AddService.keep_heap_self (uuid : GUID) (n : Nat) (char : CharacteristicConfig)
    (goChars : Registry) (w : World) (h : Nat) (hh : char.Handle = some h) :
    (AddService.keep uuid n char goChars w).2.heap h = boundStruct (w.heap h) n char := by
  simp [AddService.keep, hh, World.setValue, World.update, World.emit, boundStruct]

theorem AddService.keep_heap_ne (uuid : GUID) (n : Nat) (char : CharacteristicConfig)
    (goChars : Registry) (w : World) (a : Nat) (ha : char.Handle ≠ some a) :
    (AddService.keep uuid n char goChars w).2.heap a = w.heap a := by
  cases hh : char.Handle with
  | none => simp [AddService.keep, hh]
  | some h =>
    have hne : a ≠ h := by
      intro hah
      exact ha (by rw [hh, hah])
    simp [AddService.keep, hh, World.setValue, World.update, World.emit, hne]

theorem AddService.keep_writeEvent (uuid : GUID) (n : Nat) (char : CharacteristicConfig)
    (goChars : Registry) (w : World) (a : Nat) :
    ((AddService.keep uuid n char goChars w).2.heap a).writeEvent = (w.heap a).writeEvent := by
  cases hh : char.Handle with
  | none => simp [AddService.keep, hh]
  | some h =>
    by_cases ha : a = h <;>
      simp [AddService.keep, hh, World.setValue, World.update, World.emit, ha]

theorem AddService.keep_goChars_self (uuid : GUID) (n : Nat) (char : CharacteristicConfig)
    (goChars : Registry) (w : World) (h : Nat) (hh : char.Handle = some h) :
    (AddService.keep uuid n char goChars w).1 uuid = some h := by
  simp [AddService.keep, hh, Registry.insert]

theorem AddService.keep_goChars_ne (uuid : GUID) (n : Nat) (char : CharacteristicConfig)
    (goChars : Registry) (w : World) (g : GUID) (hg : uuid = g → char.Handle = none) :
    (AddService.keep uuid n char goChars w).1 g = goChars g := by
  cases hh : char.Handle with
  | none => simp [AddService.keep, hh]
  | some h =>
    have hne : g ≠ uuid := by
      intro hgu
      have := hg hgu.symm
      rw [hh] at this
      exact Option.noConfusion this
    simp [AddService.keep, hh, Registry.insert, hne]

/-- One iteration of the loop, seen from the loop: either the function returns an error with
the heap and the map untouched, or it goes on with the next iteration after the block that
keeps the struct, which starts from the heap as it was. -/
theorem AddService.loop_cons (conv : UUID → GUID) (env : ServiceEnv) (i : Nat)
    (char : CharacteristicConfig) (rest : List CharacteristicConfig) (goChars : Registry)
    (w : World) :
    (∃ e w1, AddService.loop conv env i (char :: rest) goChars w = ⟨some e, goChars, w1⟩ ∧
      w1.heap = w.heap) ∨
    (∃ w1, w1.heap = w.heap ∧
      firstFailure (AddService.bodySteps conv (env.chars i) char) = none ∧
      AddService.loop conv env i (char :: rest) goChars w =
        AddService.loop conv env (i + 1) rest
          (AddService.keep (conv char.UUID) (env.chars i).characteristic char goChars w1).1
          (AddService.keep (conv char.UUID) (env.chars i).characteristic char goChars w1).2) := by
  rcases AddService.body_cases conv (env.chars i) char goChars w with ⟨e, _, hrun⟩ | ⟨hok, hrun⟩
  · exact Or.inl ⟨e,
      { heap := w.heap,
        trace := w.trace ++
          (performed (AddService.bodySteps conv (env.chars i) char)).map Effect.native },
      by simp only [AddService.loop, hrun], rfl⟩
  · exact Or.inr ⟨
      { heap := w.heap,
        trace := w.trace ++
          ((AddService.bodySteps conv (env.chars i) char).map Prod.fst).map Effect.native },
      rfl, hok, by simp only [AddService.loop, hrun]⟩

/-- The loop leaves alone every struct that no descriptor points to. -/
theorem AddService.loop_heap_of_not_mem (conv : UUID → GUID) (env : ServiceEnv) (h : Nat)
    (cs : List CharacteristicConfig) :
    ∀ (i : Nat) (goChars : Registry) (w : World), (∀ d ∈ cs, d.Handle ≠ some h) →
      (AddService.loop conv env i cs goChars w).world.heap h = w.heap h := by
  induction cs with
  | nil =>
    intro i goChars w _
    simp [AddService.loop, AddService.advertise_spec]
  | cons char rest ih =>
    intro i goChars w hcs
    rcases AddService.loop_cons conv env i char rest goChars w with
      ⟨e, w1, hrun, hw1⟩ | ⟨w1, hw1, _, hrun⟩
    · rw [hrun]
      simp [hw1]
    · rw [hrun, ih _ _ _ (fun d hd => hcs d (List.mem_cons_of_mem _ hd)),
        AddService.keep_heap_ne _ _ _ _ _ _ (hcs char (List.mem_cons_self _ _)), hw1]

/-- The loop leaves alone every entry of the map whose GUID no descriptor with a `Handle`
has. -/
theorem AddService.loop_goChars_of_not_mem (conv : UUID → GUID) (env : ServiceEnv) (g : GUID)
    (cs : List CharacteristicConfig) :
    ∀ (i : Nat) (goChars : Registry) (w : World),
      (∀ d ∈ cs, conv d.UUID = g → d.Handle = none) →
      (AddService.loop conv env i cs goChars w).goChars g = goChars g := by
  induction cs with
  | nil =>
    intro i goChars w _
    simp [AddService.loop, AddService.advertise_spec]
  | cons char rest ih =>
    intro i goChars w hcs
    rcases AddService.loop_cons conv env i char rest goChars w with
      ⟨e, w1, hrun, hw1⟩ | ⟨w1, hw1, _, hrun⟩
    · rw [hrun]
    · rw [hrun, ih _ _ _ (fun d hd => hcs d (List.mem_cons_of_mem _ hd)),
        AddService.keep_goChars_ne _ _ _ _ _ _ (hcs char (List.mem_cons_self _ _))]

/-- The loop never assigns the callback field of a struct. -/
theorem AddService.loop_writeEvent (conv : UUID → GUID) (env : ServiceEnv)
    (cs : List CharacteristicConfig) :
    ∀ (i : Nat) (goChars : Registry) (w : World) (a : Nat),
      ((AddService.loop conv env i cs goChars w).world.heap a).writeEvent =
        (w.heap a).writeEvent := by
  induction cs with
  | nil =>
    intro i goChars w a
    simp [AddService.loop, AddService.advertise_spec]
  | cons char rest ih =>
    intro i goChars w a
    rcases AddService.loop_cons conv env i char rest goChars w with
      ⟨e, w1, hrun, hw1⟩ | ⟨w1, hw1, _, hrun⟩
    · rw [hrun]
      simp [hw1]
    · rw [hrun, ih, AddService.keep_writeEvent, hw1]

/-- After a loop that ends without error, a descriptor with a `Handle` whose `Handle` and GUID
no later descriptor with a `Handle` uses again is in the map, and its struct holds the
initial value, a free mutex, the flags and the native characteristic of its iteration. -/
theorem AddService.loop_registers (conv : UUID → GUID) (env : ServiceEnv)
    (d : CharacteristicConfig) (post : List CharacteristicConfig) (h : Nat)
    (hh : d.Handle = some h)
    (hpost : ∀ d1 ∈ post, d1.Handle ≠ some h ∧ (conv d1.UUID = conv d.UUID → d1.Handle = none))
    (pre : List CharacteristicConfig) :
    ∀ (i : Nat) (goChars : Registry) (w : World),
      (AddService.loop conv env i (pre ++ d :: post) goChars w).err = none →
      (AddService.loop conv env i (pre ++ d :: post) goChars w).goChars (conv d.UUID) = some h ∧
      (AddService.loop conv env i (pre ++ d :: post) goChars w).world.heap h =
        boundStruct (w.heap h) (env.chars (i + pre.length)).characteristic d := by
  induction pre with
  | nil =>
    intro i goChars w herr
    simp only [List.nil_append] at herr ⊢
    rcases AddService.loop_cons conv env i d post goChars w with
      ⟨e, w1, hrun, hw1⟩ | ⟨w1, hw1, _, hrun⟩
    · rw [hrun] at herr
      exact Option.noConfusion herr
    · rw [hrun]
      rw [AddService.loop_goChars_of_not_mem conv env (conv d.UUID) post _ _ _
          (fun d1 hd1 => (hpost d1 hd1).2),
        AddService.loop_heap_of_not_mem conv env h post _ _ _ (fun d1 hd1 => (hpost d1 hd1).1),
        AddService.keep_goChars_self _ _ _ _ _ h hh, AddService.keep_heap_self _ _ _ _ _ h hh,
        hw1]
      simp
  | cons char rest ih =>
    intro i goChars w herr
    simp only [List.cons_append] at herr ⊢
    rcases AddService.loop_cons conv env i char (rest ++ d :: post) goChars w with
      ⟨e, w1, hrun, hw1⟩ | ⟨w1, hw1, _, hrun⟩
    · rw [hrun] at herr
      exact Option.noConfusion herr
    · rw [hrun] at herr ⊢
      obtain ⟨h1, h2⟩ := ih _ _ _ herr
      refine ⟨h1, ?_⟩
      rw [h2]
      have hwe := AddService.keep_writeEvent (conv char.UUID) (env.chars i).characteristic char
        goChars w1 h
      rw [hw1] at hwe
      simp only [boundStruct, hwe, List.length_cons]
      have : i + 1 + rest.length = i + (rest.length + 1) := by omega
      rw [this]

/-- The part of `AddService` before the loop: either it fails, or the loop starts from an
empty map and the heap as it was. -/
theorem AddService_cases (conv : UUID → GUID) (env : ServiceEnv) (s : Service) (w : World) :
    (∃ e w1, AddService conv env s w = ⟨some e, fun _ => none, w1⟩ ∧ w1.heap = w.heap) ∨
    (∃ w1, w1.heap = w.heap ∧
      AddService conv env s w =
        AddService.loop conv env 0 s.Characteristics (fun _ => none) w1) := by
  rcases h1 : env.createAsync with _ | e1
  swap
  · refine Or.inl ⟨e1, ?_, ?_, ?_⟩
    · exact w.emit (.native (.GattServiceProviderCreateAsync (conv s.UUID)))
    · simp only [AddService, attempt, h1]
    · rfl
  rcases h2 : env.await with _ | e2
  swap
  · refine Or.inl ⟨e2, ?_, ?_, ?_⟩
    · exact (w.emit (.native (.GattServiceProviderCreateAsync (conv s.UUID)))).emit
        (.native .awaitServiceProvider)
    · simp only [AddService, attempt, h1, h2]
    · rfl
  rcases h3 : env.getResults with _ | e3
  swap
  · refine Or.inl ⟨e3, ?_, ?_, ?_⟩
    · exact ((w.emit (.native (.GattServiceProviderCreateAsync (conv s.UUID)))).emit
        (.native .awaitServiceProvider)).emit (.native .getResultsServiceProvider)
    · simp only [AddService, attempt, h1, h2, h3]
    · rfl
  rcases h4 : env.getServiceProvider with _ | e4
  swap
  · refine Or.inl ⟨e4, ?_, ?_, ?_⟩
    · exact (((w.emit (.native (.GattServiceProviderCreateAsync (conv s.UUID)))).emit
        (.native .awaitServiceProvider)).emit (.native .getResultsServiceProvider)).emit
        (.native .GetServiceProvider)
    · simp only [AddService, attempt, h1, h2, h3, h4]
    · rfl
  rcases h5 : env.getService with _ | e5
  swap
  · refine Or.inl ⟨e5, ?_, ?_, ?_⟩
    · exact ((((w.emit (.native (.GattServiceProviderCreateAsync (conv s.UUID)))).emit
        (.native .awaitServiceProvider)).emit (.native .getResultsServiceProvider)).emit
        (.native .GetServiceProvider)).emit (.native .GetService)
    · simp only [AddService, attempt, h1, h2, h3, h4, h5]
    · rfl
  · refine Or.inr ⟨?_, ?_, ?_⟩
    · exact ((((w.emit (.native (.GattServiceProviderCreateAsync (conv s.UUID)))).emit
        (.native .awaitServiceProvider)).emit (.native .getResultsServiceProvider)).emit
        (.native .GetServiceProvider)).emit (.native .GetService)
    · rfl
    · simp only [AddService, attempt, h1, h2, h3, h4, h5]

/-- Every entry of the map after the loop was there before or comes from a descriptor with a
`Handle` whose iteration, like every iteration before it, made all its native calls with
success. -/
theorem AddService.loop_goChars_origin (conv : UUID → GUID) (env : ServiceEnv) (g : GUID)
    (h : Nat) (cs : List CharacteristicConfig) :
    ∀ (i : Nat) (goChars : Registry) (w : World),
      (AddService.loop conv env i cs goChars w).goChars g = some h →
      goChars g = some h ∨
      ∃ k d, cs[k]? = some d ∧ d.Handle = some h ∧ conv d.UUID = g ∧
        ∀ j d1, j ≤ k → cs[j]? = some d1 →
          firstFailure (AddService.bodySteps conv (env.chars (i + j)) d1) = none := by
  induction cs with
  | nil =>
    intro i goChars w hg
    left
    simpa [AddService.loop, AddService.advertise_spec] using hg
  | cons char rest ih =>
    intro i goChars w hg
    rcases AddService.loop_cons conv env i char rest goChars w with
      ⟨e, w1, hrun, hw1⟩ | ⟨w1, hw1, hok, hrun⟩
    · left
      rw [hrun] at hg
      exact hg
    · rw [hrun] at hg
      rcases ih _ _ _ hg with hkept | ⟨k, d, hk, hdh, hdg, hall⟩
      · cases hh : char.Handle with
        | none =>
          left
          simpa [AddService.keep, hh] using hkept
        | some h1 =>
          by_cases hgu : g = conv char.UUID
          · right
            refine ⟨0, char, by simp, ?_, hgu.symm, ?_⟩
            · simpa [AddService.keep, hh, Registry.insert, hgu] using hkept
            · intro j d1 hj hd1
              have hj0 : j = 0 := by omega
              subst hj0
              simp only [List.getElem?_cons_zero, Option.some.injEq] at hd1
              subst hd1
              simpa using hok
          · left
            simpa [AddService.keep, hh, Registry.insert, hgu] using hkept
      · right
        refine ⟨k + 1, d, by simpa using hk, hdh, hdg, ?_⟩
        intro j d1 hj hd1
        cases j with
        | zero =>
          simp only [List.getElem?_cons_zero, Option.some.injEq] at hd1
          subst hd1
          simpa using hok
        | succ j =>
          have := hall j d1 (by omega) (by simpa using hd1)
          have hidx : i + 1 + j = i + (j + 1) := by omega
          rw [hidx] at this
          exact this

theorem responses_append (a b : List Effect) :
    responses (a ++ b) = responses a ++ responses b := by
  simp [responses]

theorem responses_readEffects (c : Nat) (value buf : Bytes) :
    responses (readEffects c value buf) = [buf] := by
  by_cases hv : value.length > 0 <;> simp [responses, readEffects, hv]

theorem hugeValue_length : hugeValue.length = 2 ^ 32 :=
  List.length_replicate _ _

theorem uint32_hugeValue_length : uint32 hugeValue.length = 0 := by
  rw [hugeValue_length]
  exact Nat.mod_self _

theorem sampleWorld_value (v : Bytes) : ((sampleWorld v).heap 0).value = v := rfl

theorem sampleWorld_valueMtx (v : Bytes) :
    ((sampleWorld v).heap 0).valueMtx = some { locked := false } := rfl

theorem sampleWorld_trace (v : Bytes) : (sampleWorld v).trace = [] := rfl

theorem sampleRegistry_hit : sampleRegistry (ReadRequestedEvent.ok (sampleConv 1)).uuid = some 0 := by
  decide

/-- A write request for the characteristic of `sampleWorld v`, which has no callback: the
handler makes its fetch calls and nothing else. -/
theorem writeRequestedHandler_sampleWorld (v : Bytes) (offset : Nat) (value : Bytes) :
    writeRequestedHandler sampleRegistry (WriteRequestedEvent.ok (sampleConv 1) offset value)
        (sampleWorld v) =
      .returned () { heap := (sampleWorld v).heap, trace := writeFetch.map Effect.native } := by
  simp [writeRequestedHandler, attempt, WriteRequestedEvent.ok, sampleRegistry, sampleWorld,
    World.emit, writeFetch]

/-- A read request for the characteristic of `sampleWorld v`: the trace it leaves. -/
theorem readRequestedHandler_sampleWorld (v : Bytes) :
    (readRequestedHandler sampleRegistry (ReadRequestedEvent.ok (sampleConv 1))
        (sampleWorld v)).world.trace =
      readEffects 0 v (v.take (uint32 v.length)) := by
  rw [readRequestedHandler_spec sampleRegistry (ReadRequestedEvent.ok (sampleConv 1))
    (sampleWorld v) 0 sampleRegistry_hit rfl (by decide)]
  simp [Outcome.world, sampleWorld]

/-- A write request and then a read request for the characteristic of `sampleWorld v`: the
write leaves the value in place and the read is answered with the first `uint32(len(v))`
bytes of `v`. -/
theorem write_then_read_sampleWorld (v : Bytes) (offset : Nat) (value : Bytes) :
    ((writeRequestedHandler sampleRegistry (WriteRequestedEvent.ok (sampleConv 1) offset value)
        (sampleWorld v)).world.heap 0).value = v ∧
    responses (readRequestedHandler sampleRegistry (ReadRequestedEvent.ok (sampleConv 1))
        (writeRequestedHandler sampleRegistry (WriteRequestedEvent.ok (sampleConv 1) offset value)
          (sampleWorld v)).world).world.trace = [v.take (uint32 v.length)] := by
  rw [writeRequestedHandler_sampleWorld]
  refine ⟨rfl, ?_⟩
  rw [readRequestedHandler_spec sampleRegistry (ReadRequestedEvent.ok (sampleConv 1))
    _ 0 sampleRegistry_hit rfl (by decide)]
  simp only [Outcome.world, responses_append, responses_readEffects]
  simp [responses, writeFetch, sampleWorld]

/-! ## The claims, with the lemmas still needed -/

/-- C1: for a bound characteristic and a non-empty `p`, `Write(p)` returns with the count
`len(p)` and with the stored value equal to `p` on every path: the error is nil when the
Notify flag is unset, and otherwise it is the error of the first native call of the
notification that fails (nil when all succeed); the stored value is `p` in every case. -/
theorem Write_returns_length_and_keeps_value (N : Nat) (env : NotifyEnv) (c : Nat) (p : Bytes)
    (w : World) (hp : p ≠ []) (hb : Bound (w.heap c)) :
    ∃ (err : Option Error) (w1 : World),
      Write N env c p w = .returned (p.length, err) w1 ∧
      (w1.heap c).value = p ∧
      ((w.heap c).flags &&& N = 0 → err = none) ∧
      ((w.heap c).flags &&& N ≠ 0 → err = env.firstFailure) := by
  obtain ⟨mid, hrun, _, _, _⟩ := Write_spec N env c p w hp hb
  refine ⟨_, _, hrun, by simp, ?_, ?_⟩
  · intro hf
    simp [hf]
  · intro hf
    simp [hf]

/-- Witness of C1: a notification whose submission fails with error 5. -/
theorem Write_returns_length_and_keeps_value_witness :
    ([1, 2] : Bytes) ≠ [] ∧ Bound ((sampleWorld [9]).heap 0) ∧
    ∃ (err : Option Error) (w1 : World),
      Write 16 { NotifyEnv.ok with notifyValueAsync := some 5 } 0 [1, 2] (sampleWorld [9]) =
        .returned (([1, 2] : Bytes).length, err) w1 ∧
      (w1.heap 0).value = [1, 2] ∧
      (((sampleWorld [9]).heap 0).flags &&& 16 = 0 → err = none) ∧
      (((sampleWorld [9]).heap 0).flags &&& 16 ≠ 0 →
        err = NotifyEnv.firstFailure { NotifyEnv.ok with notifyValueAsync := some 5 }) :=
  ⟨by decide, by decide,
    Write_returns_length_and_keeps_value 16 { NotifyEnv.ok with notifyValueAsync := some 5 } 0
      [1, 2] (sampleWorld [9]) (by decide) (by decide)⟩

/-- C6: `Write` of a zero-length input returns `(0, nil)` in the world it started from: no
field of any struct changes and the trace gets no effect, so no callback, no lock and no
native call. -/
theorem Write_empty_is_noop (N : Nat) (env : NotifyEnv) (c : Nat) (w : World) :
    Write N env c [] w = .returned (0, none) w := by
  simp [Write]

/-- C9: for a bound characteristic and a non-empty `p`, when the Notify flag is unset
`Write(p)` returns `(len(p), nil)` after the callback, the lock, the store and the unlock and
makes no native call; hence a `Write` that returns an error had the Notify flag set. -/
theorem Write_without_notify_makes_no_native_call (N : Nat) (env : NotifyEnv) (c : Nat)
    (p : Bytes) (w : World) (hp : p ≠ []) (hb : Bound (w.heap c)) :
    ((w.heap c).flags &&& N = 0 →
      Write N env c p w =
        .returned (p.length, none)
          { heap := fun a => if a = c then { w.heap c with value := p } else w.heap a,
            trace := w.trace ++ Write.callback (w.heap c) p ++
              [Effect.lock c, Effect.store c p, Effect.unlock c] } ∧
      nativeCalls (Write N env c p w).world.trace = nativeCalls w.trace) ∧
    (∀ (n : Nat) (e : Error) (w1 : World),
      Write N env c p w = .returned (n, some e) w1 → (w.heap c).flags &&& N ≠ 0) := by
  obtain ⟨mid, hrun, _, hnone, _⟩ := Write_spec N env c p w hp hb
  constructor
  · intro hf
    have hmid := hnone hf
    subst hmid
    rw [hrun]
    refine ⟨by simp [hf], ?_⟩
    cases hcb : (w.heap c).writeEvent <;>
      simp [Outcome.world, nativeCalls, Write.callback, hcb]
  · intro n e w1 hret hf
    rw [hrun] at hret
    simp [hf] at hret

/-- Witness of C9: a characteristic with flags 16 when the Notify bit is 32. -/
theorem Write_without_notify_makes_no_native_call_witness :
    ([1] : Bytes) ≠ [] ∧ Bound ((sampleWorld [9]).heap 0) ∧
    ((((sampleWorld [9]).heap 0).flags &&& 32 = 0 →
      Write 32 NotifyEnv.ok 0 [1] (sampleWorld [9]) =
        .returned (([1] : Bytes).length, none)
          { heap := fun a =>
              if a = 0 then { (sampleWorld [9]).heap 0 with value := [1] }
              else (sampleWorld [9]).heap a,
            trace := (sampleWorld [9]).trace ++ Write.callback ((sampleWorld [9]).heap 0) [1] ++
              [Effect.lock 0, Effect.store 0 [1], Effect.unlock 0] } ∧
      nativeCalls (Write 32 NotifyEnv.ok 0 [1] (sampleWorld [9])).world.trace =
        nativeCalls (sampleWorld [9]).trace) ∧
    (∀ (n : Nat) (e : Error) (w1 : World),
      Write 32 NotifyEnv.ok 0 [1] (sampleWorld [9]) = .returned (n, some e) w1 →
        ((sampleWorld [9]).heap 0).flags &&& 32 ≠ 0)) :=
  ⟨by decide, by decide,
    Write_without_notify_makes_no_native_call 32 NotifyEnv.ok 0 [1] (sampleWorld [9])
      (by decide) (by decide)⟩

/-- Counterexample to C10: with the Notify flag set and every native call succeeding, the
mutex is unlocked last, after the notification was submitted and awaited. -/
theorem Write_unlocks_after_notify_example :
    (Write 16 NotifyEnv.ok 0 [1, 2] (sampleWorld [])).world.trace =
      [.lock 0, .store 0 [1, 2], .native .NewDataWriter, .native (.WriteBytes 2 [1, 2]),
       .native .DetachBuffer, .native (.NotifyValueAsync 7 [1, 2]), .native .awaitNotify,
       .native .getResultsNotify, .native .releaseVector, .native .releaseOp,
       .native .releaseBuffer, .native .releaseWriter, .unlock 0] ∧
    ¬ List.indexOf (Effect.unlock 0)
        (Write 16 NotifyEnv.ok 0 [1, 2] (sampleWorld [])).world.trace <
      List.indexOf (Effect.native (.NotifyValueAsync 7 [1, 2]))
        (Write 16 NotifyEnv.ok 0 [1, 2] (sampleWorld [])).world.trace := by
  decide

/-- C10, amended: for a bound characteristic with the Notify flag set and a non-empty `p`,
`Write(p)` runs the callback, locks the mutex, stores `p`, then makes the native calls of the
notification, starting with the creation of the writer, and unlocks the mutex last: the
mutex is held while the notification is built, submitted and awaited. -/
theorem Write_holds_mutex_during_notify (N : Nat) (env : NotifyEnv) (c : Nat) (p : Bytes)
    (w : World) (hp : p ≠ []) (hb : Bound (w.heap c)) (hf : (w.heap c).flags &&& N ≠ 0) :
    ∃ rest : List Effect,
      (Write N env c p w).world.trace =
        w.trace ++ Write.callback (w.heap c) p ++ [Effect.lock c, Effect.store c p] ++
          (Effect.native .NewDataWriter :: rest) ++ [Effect.unlock c] ∧
      (∀ e ∈ rest, ∃ op, e = Effect.native op) ∧
      ((Write N env c p w).world.heap c).value = p := by
  obtain ⟨mid, hrun, hnat, _, hsome⟩ := Write_spec N env c p w hp hb
  obtain ⟨rest, hrest⟩ := hsome hf
  subst hrest
  refine ⟨rest, by rw [hrun]; rfl, fun e he => hnat e (List.mem_cons_of_mem _ he), ?_⟩
  rw [hrun]
  simp [Outcome.world]

/-- Witness of C10, amended. -/
theorem Write_holds_mutex_during_notify_witness :
    ([1, 2] : Bytes) ≠ [] ∧ Bound ((sampleWorld []).heap 0) ∧
    ((sampleWorld []).heap 0).flags &&& 16 ≠ 0 ∧
    ∃ rest : List Effect,
      (Write 16 NotifyEnv.ok 0 [1, 2] (sampleWorld [])).world.trace =
        (sampleWorld []).trace ++ Write.callback ((sampleWorld []).heap 0) [1, 2] ++
          [Effect.lock 0, Effect.store 0 [1, 2]] ++
          (Effect.native .NewDataWriter :: rest) ++ [Effect.unlock 0] ∧
      (∀ e ∈ rest, ∃ op, e = Effect.native op) ∧
      ((Write 16 NotifyEnv.ok 0 [1, 2] (sampleWorld [])).world.heap 0).value = [1, 2] :=
  ⟨by decide, by decide, by decide,
    Write_holds_mutex_during_notify 16 NotifyEnv.ok 0 [1, 2] (sampleWorld [])
      (by decide) (by decide) (by decide)⟩

/-- Counterexample to C2: a stored value of `2^32` bytes.  `uint32(len(value))` is 0, so
`WriteBytes` is asked for 0 bytes and the read is answered with an empty buffer. -/
theorem read_of_huge_value_truncates_example :
    ((sampleWorld hugeValue).heap 0).value = hugeValue ∧ hugeValue.length = 2 ^ 32 ∧
    (readRequestedHandler sampleRegistry (ReadRequestedEvent.ok (sampleConv 1))
        (sampleWorld hugeValue)).world.trace =
      [.native .GetRequestAsync, .native .awaitRequest, .native .getResultsRequest,
       .native .GetUuid, .native .NewDataWriter, .lock 0, .native (.WriteBytes 0 hugeValue),
       .native .DetachBuffer, .native (.RespondWithValue []), .native .releaseBuffer,
       .unlock 0, .native .releaseWriter] := by
  refine ⟨sampleWorld_value hugeValue, hugeValue_length, ?_⟩
  have hpos : hugeValue.length > 0 := by
    rw [hugeValue_length]
    exact Nat.two_pow_pos 32
  rw [readRequestedHandler_sampleWorld, readEffects, uint32_hugeValue_length, List.take_zero,
    if_pos hpos]
  rfl

/-- C2, amended: for a registered characteristic whose mutex is free and whose stored value
`V` is shorter than `2^32` bytes (the empty value included), a read request for its GUID
whose native calls all succeed is answered exactly once, with `V`, and the heap, so the
stored value too, stays as it was. -/
theorem read_returns_stored_value (goChars : Registry) (ev : ReadRequestedEvent) (w : World)
    (c : Nat) (hreg : goChars ev.uuid = some c)
    (hm : (w.heap c).valueMtx = some { locked := false }) (hok : ev.succeeds)
    (hlen : (w.heap c).value.length < 2 ^ 32) :
    ∃ w1 : World,
      readRequestedHandler goChars ev w = .returned () w1 ∧
      w1.heap = w.heap ∧
      w1.trace = w.trace ++ readEffects c (w.heap c).value (w.heap c).value ∧
      responses w1.trace = responses w.trace ++ [(w.heap c).value] := by
  have htake : (w.heap c).value.take (uint32 (w.heap c).value.length) = (w.heap c).value := by
    rw [uint32, Nat.mod_eq_of_lt hlen]
    exact List.take_length _
  refine ⟨_, readRequestedHandler_spec goChars ev w c hreg hm hok, rfl, ?_, ?_⟩
  · simp only [htake]
  · simp only [htake, responses_append, responses_readEffects]

/-- Witness of C2, amended: the stored value `[104, 105]`, which the handler passes to
`WriteBytes` with the count 2 and then sends as the answer. -/
theorem read_returns_stored_value_witness :
    sampleRegistry (ReadRequestedEvent.ok (sampleConv 1)).uuid = some 0 ∧
    ((sampleWorld [104, 105]).heap 0).valueMtx = some { locked := false } ∧
    (ReadRequestedEvent.ok (sampleConv 1)).succeeds ∧
    ((sampleWorld [104, 105]).heap 0).value.length < 2 ^ 32 ∧
    ((sampleWorld [104, 105]).heap 0).value = [104, 105] ∧
    readEffects 0 [104, 105] [104, 105] =
      [.native .GetRequestAsync, .native .awaitRequest, .native .getResultsRequest,
       .native .GetUuid, .native .NewDataWriter, .lock 0,
       .native (.WriteBytes 2 [104, 105]), .native .DetachBuffer,
       .native (.RespondWithValue [104, 105]), .native .releaseBuffer, .unlock 0,
       .native .releaseWriter] ∧
    ∃ w1 : World,
      readRequestedHandler sampleRegistry (ReadRequestedEvent.ok (sampleConv 1))
        (sampleWorld [104, 105]) = .returned () w1 ∧
      w1.heap = (sampleWorld [104, 105]).heap ∧
      w1.trace = (sampleWorld [104, 105]).trace ++
        readEffects 0 ((sampleWorld [104, 105]).heap 0).value
          ((sampleWorld [104, 105]).heap 0).value ∧
      responses w1.trace =
        responses (sampleWorld [104, 105]).trace ++ [((sampleWorld [104, 105]).heap 0).value] :=
  ⟨by decide, by decide, by decide, by decide, by decide, by decide,
    read_returns_stored_value sampleRegistry (ReadRequestedEvent.ok (sampleConv 1))
      (sampleWorld [104, 105]) 0 (by decide) (by decide) (by decide) (by decide)⟩

/-- Counterexample to C3: a descriptor without a `Handle`.  `AddService` returns nil, the
descriptor is not entered in the map, and a read request for its GUID gets no answer. -/
theorem AddService_without_handle_read_unanswered_example :
    (AddService sampleConv ServiceEnv.ok serviceWithoutHandle emptyWorld).err = none ∧
    (AddService sampleConv ServiceEnv.ok serviceWithoutHandle emptyWorld).goChars
      (sampleConv 1) = none ∧
    responses (readRequestedHandler
      (AddService sampleConv ServiceEnv.ok serviceWithoutHandle emptyWorld).goChars
      (ReadRequestedEvent.ok (sampleConv 1))
      (AddService sampleConv ServiceEnv.ok serviceWithoutHandle emptyWorld).world).world.trace
      = [] := by
  decide

/-- C3, amended: let `d` be a descriptor of the service that has a `Handle`, an initial
value `V` shorter than `2^32` bytes, and whose `Handle` and GUID no later descriptor with a
`Handle` uses again.  If `AddService` returns nil then a read request for the GUID of `d`
whose native calls all succeed, arriving before any `Write`, is answered exactly once, with
`V`. -/
theorem AddService_then_read_returns_initial_value (conv : UUID → GUID) (env : ServiceEnv)
    (s : Service) (w : World) (pre post : List CharacteristicConfig) (d : CharacteristicConfig)
    (h : Nat) (ev : ReadRequestedEvent)
    (hs : s.Characteristics = pre ++ d :: post) (hh : d.Handle = some h)
    (hpost : ∀ d1 ∈ post, d1.Handle ≠ some h ∧ (conv d1.UUID = conv d.UUID → d1.Handle = none))
    (hlen : d.Value.length < 2 ^ 32)
    (herr : (AddService conv env s w).err = none)
    (huuid : ev.uuid = conv d.UUID) (hok : ev.succeeds) :
    ∃ w1 : World,
      readRequestedHandler (AddService conv env s w).goChars ev (AddService conv env s w).world
        = .returned () w1 ∧
      w1.trace = (AddService conv env s w).world.trace ++ readEffects h d.Value d.Value ∧
      responses w1.trace = responses (AddService conv env s w).world.trace ++ [d.Value] := by
  rcases AddService_cases conv env s w with ⟨e, w0, hrun, _⟩ | ⟨w0, _, hrun⟩
  · rw [hrun] at herr
    exact Option.noConfusion herr
  · rw [hrun, hs] at herr ⊢
    obtain ⟨hreg, hheap⟩ := AddService.loop_registers conv env d post h hh hpost pre 0
      (fun _ => none) w0 herr
    have hval : ((AddService.loop conv env 0 (pre ++ d :: post) (fun _ => none) w0).world.heap
        h).value = d.Value := by
      rw [hheap]
      rfl
    have hmtx : ((AddService.loop conv env 0 (pre ++ d :: post) (fun _ => none) w0).world.heap
        h).valueMtx = some { locked := false } := by
      rw [hheap]
      rfl
    rw [← huuid] at hreg
    have hread := readRequestedHandler_spec _ ev _ h hreg hmtx hok
    have htake : d.Value.take (uint32 d.Value.length) = d.Value := by
      rw [uint32, Nat.mod_eq_of_lt hlen]
      exact List.take_length _
    rw [hval, htake] at hread
    refine ⟨_, hread, rfl, ?_⟩
    simp only [responses_append, responses_readEffects]

/-- Witness of C3, amended: the second of the three descriptors of `serviceWithThree`. -/
theorem AddService_then_read_returns_initial_value_witness :
    serviceWithThree.Characteristics =
      [descriptorWithoutHandle] ++ descriptorWithCallback :: [descriptorOther] ∧
    descriptorWithCallback.Handle = some 0 ∧
    (∀ d1 ∈ [descriptorOther],
      d1.Handle ≠ some 0 ∧
      (sampleConv d1.UUID = sampleConv descriptorWithCallback.UUID → d1.Handle = none)) ∧
    descriptorWithCallback.Value.length < 2 ^ 32 ∧
    (AddService sampleConv ServiceEnv.ok serviceWithThree emptyWorld).err = none ∧
    (ReadRequestedEvent.ok (sampleConv 1)).uuid = sampleConv descriptorWithCallback.UUID ∧
    (ReadRequestedEvent.ok (sampleConv 1)).succeeds ∧
    ∃ w1 : World,
      readRequestedHandler
        (AddService sampleConv ServiceEnv.ok serviceWithThree emptyWorld).goChars
        (ReadRequestedEvent.ok (sampleConv 1))
        (AddService sampleConv ServiceEnv.ok serviceWithThree emptyWorld).world
        = .returned () w1 ∧
      w1.trace = (AddService sampleConv ServiceEnv.ok serviceWithThree emptyWorld).world.trace
        ++ readEffects 0 descriptorWithCallback.Value descriptorWithCallback.Value ∧
      responses w1.trace =
        responses (AddService sampleConv ServiceEnv.ok serviceWithThree emptyWorld).world.trace
          ++ [descriptorWithCallback.Value] :=
  ⟨by decide, by decide, by decide, by decide, by decide, by decide, by decide,
    AddService_then_read_returns_initial_value sampleConv ServiceEnv.ok serviceWithThree
      emptyWorld [descriptorWithoutHandle] [descriptorOther] descriptorWithCallback 0
      (ReadRequestedEvent.ok (sampleConv 1))
      (by decide) (by decide) (by decide) (by decide) (by decide) (by decide) (by decide)⟩

/-- C4 on the code: the descriptor `descriptorWithCallback` carries the write callback 9 and
has a `Handle`; `AddService` returns nil and enters it in the map, yet its struct has no
callback, and a write request for its GUID with offset 0 and payload `[1]`, fetched with
success, invokes no callback at all. -/
theorem AddService_drops_write_callback_example :
    (AddService sampleConv ServiceEnv.ok serviceWithCallback emptyWorld).err = none ∧
    (AddService sampleConv ServiceEnv.ok serviceWithCallback emptyWorld).goChars
      (sampleConv 1) = some 0 ∧
    ((AddService sampleConv ServiceEnv.ok serviceWithCallback emptyWorld).world.heap
      0).writeEvent = none ∧
    callbacks (writeRequestedHandler
      (AddService sampleConv ServiceEnv.ok serviceWithCallback emptyWorld).goChars
      (WriteRequestedEvent.ok (sampleConv 1) 0 [1])
      (AddService sampleConv ServiceEnv.ok serviceWithCallback emptyWorld).world).world.trace
      = [] := by
  decide

/-- Counterexample to C5: a stored value of `2^32` bytes.  The write request leaves it in
place, and the read request that follows is answered with an empty buffer. -/
theorem peer_write_then_read_of_huge_value_example :
    hugeValue.length = 2 ^ 32 ∧
    ((sampleWorld hugeValue).heap 0).value = hugeValue ∧
    ((writeRequestedHandler sampleRegistry (WriteRequestedEvent.ok (sampleConv 1) 0 [1])
        (sampleWorld hugeValue)).world.heap 0).value = hugeValue ∧
    responses (readRequestedHandler sampleRegistry (ReadRequestedEvent.ok (sampleConv 1))
        (writeRequestedHandler sampleRegistry (WriteRequestedEvent.ok (sampleConv 1) 0 [1])
          (sampleWorld hugeValue)).world).world.trace = [[]] := by
  refine ⟨hugeValue_length, sampleWorld_value hugeValue,
    (write_then_read_sampleWorld hugeValue 0 [1]).1, ?_⟩
  rw [(write_then_read_sampleWorld hugeValue 0 [1]).2, uint32_hugeValue_length, List.take_zero]

/-- C5, amended: every write request (any GUID, offset, payload and outcome of its native
calls), in every world and for every stored value, returns with the heap as it was, so the
stored value of every characteristic is still what it was.  For a registered characteristic
whose mutex is free and whose stored value `V` is shorter than `2^32` bytes, a read request
that follows, with all native calls succeeding, is answered exactly once, with `V`, and
leaves the heap as it was. -/
theorem peer_write_keeps_stored_value (goChars : Registry) (wev : WriteRequestedEvent)
    (w : World) :
    ∃ w1 : World,
      writeRequestedHandler goChars wev w = .returned () w1 ∧
      w1.heap = w.heap ∧
      ∀ (rev : ReadRequestedEvent) (c : Nat), goChars rev.uuid = some c →
        (w.heap c).valueMtx = some { locked := false } → rev.succeeds →
        (w.heap c).value.length < 2 ^ 32 →
        ∃ w2 : World,
          readRequestedHandler goChars rev w1 = .returned () w2 ∧
          w2.heap = w.heap ∧
          responses w2.trace = responses w1.trace ++ [(w.heap c).value] := by
  obtain ⟨calls, cb, hrun, _, _, _⟩ := writeRequestedHandler_spec goChars wev w
  refine ⟨_, hrun, rfl, ?_⟩
  intro rev c hreg hm hok hlen
  have htake : (w.heap c).value.take (uint32 (w.heap c).value.length) = (w.heap c).value := by
    rw [uint32, Nat.mod_eq_of_lt hlen]
    exact List.take_length _
  have hread := readRequestedHandler_spec goChars rev
    { heap := w.heap, trace := w.trace ++ calls.map Effect.native ++ cb } c hreg hm hok
  refine ⟨_, hread, rfl, ?_⟩
  simp only [htake, responses_append, responses_readEffects]

/-- Witness of C5, amended: the stored value `[104, 105]`, a write of `[1]` at offset 0 and
then a read. -/
theorem peer_write_keeps_stored_value_witness :
    sampleRegistry (ReadRequestedEvent.ok (sampleConv 1)).uuid = some 0 ∧
    ((sampleWorld [104, 105]).heap 0).valueMtx = some { locked := false } ∧
    (ReadRequestedEvent.ok (sampleConv 1)).succeeds ∧
    ((sampleWorld [104, 105]).heap 0).value.length < 2 ^ 32 ∧
    ((sampleWorld [104, 105]).heap 0).value = [104, 105] ∧
    ∃ w1 w2 : World,
      writeRequestedHandler sampleRegistry (WriteRequestedEvent.ok (sampleConv 1) 0 [1])
        (sampleWorld [104, 105]) = .returned () w1 ∧
      w1.heap = (sampleWorld [104, 105]).heap ∧
      readRequestedHandler sampleRegistry (ReadRequestedEvent.ok (sampleConv 1)) w1 =
        .returned () w2 ∧
      w2.heap = (sampleWorld [104, 105]).heap ∧
      responses w2.trace = responses w1.trace ++ [((sampleWorld [104, 105]).heap 0).value] := by
  obtain ⟨w1, hwrite, hheap, hread⟩ :=
    peer_write_keeps_stored_value sampleRegistry (WriteRequestedEvent.ok (sampleConv 1) 0 [1])
      (sampleWorld [104, 105])
  obtain ⟨w2, hrun, hheap2, hresp⟩ := hread (ReadRequestedEvent.ok (sampleConv 1)) 0
    (by decide) (by decide) (by decide) (by decide)
  exact ⟨by decide, by decide, by decide, by decide, by decide,
    w1, w2, hwrite, hheap, hrun, hheap2, hresp⟩

/-- C8: a read request and a write request for a GUID that is not in the map, whatever the
outcome of their native calls: each handler returns (it neither panics nor waits), leaves
the heap as it was, and adds to the trace only some of the calls that fetch the request, so
no answer is sent and no callback runs. -/
theorem unregistered_request_is_dropped (goChars : Registry) (rev : ReadRequestedEvent)
    (wev : WriteRequestedEvent) (w : World) (hr : goChars rev.uuid = none)
    (hw : goChars wev.uuid = none) :
    (∃ calls : List NativeOp,
      readRequestedHandler goChars rev w =
        .returned () { heap := w.heap, trace := w.trace ++ calls.map Effect.native } ∧
      (∀ op ∈ calls, op ∈ readFetch)) ∧
    (∃ calls : List NativeOp,
      writeRequestedHandler goChars wev w =
        .returned () { heap := w.heap, trace := w.trace ++ calls.map Effect.native } ∧
      (∀ op ∈ calls, op ∈ writeFetch)) := by
  refine ⟨readRequestedHandler_miss goChars rev w hr, ?_⟩
  obtain ⟨calls, cb, hrun, hcalls, _, hcb⟩ := writeRequestedHandler_spec goChars wev w
  have hnil := hcb hw
  subst hnil
  exact ⟨calls, by simpa using hrun, hcalls⟩

/-- Witness of C8: requests for `sampleConv 2`, which `sampleRegistry` does not hold. -/
theorem unregistered_request_is_dropped_witness :
    sampleRegistry (ReadRequestedEvent.ok (sampleConv 2)).uuid = none ∧
    sampleRegistry (WriteRequestedEvent.ok (sampleConv 2) 3 [1]).uuid = none ∧
    (∃ calls : List NativeOp,
      readRequestedHandler sampleRegistry (ReadRequestedEvent.ok (sampleConv 2))
          (sampleWorld [5]) =
        .returned () { heap := (sampleWorld [5]).heap,
                       trace := (sampleWorld [5]).trace ++ calls.map Effect.native } ∧
      (∀ op ∈ calls, op ∈ readFetch)) ∧
    (∃ calls : List NativeOp,
      writeRequestedHandler sampleRegistry (WriteRequestedEvent.ok (sampleConv 2) 3 [1])
          (sampleWorld [5]) =
        .returned () { heap := (sampleWorld [5]).heap,
                       trace := (sampleWorld [5]).trace ++ calls.map Effect.native } ∧
      (∀ op ∈ calls, op ∈ writeFetch)) :=
  ⟨by decide, by decide,
    unregistered_request_is_dropped sampleRegistry (ReadRequestedEvent.ok (sampleConv 2))
      (WriteRequestedEvent.ok (sampleConv 2) 3 [1]) (sampleWorld [5]) (by decide) (by decide)⟩

theorem firstFailure_eq_none_iff (l : List Step) :
    firstFailure l = none ↔ ∀ x ∈ l, x.2 = none := by
  induction l with
  | nil => simp [firstFailure]
  | cons x l ih =>
    rcases x with ⟨op, _ | err⟩
    · simp [firstFailure, ih]
    · simp [firstFailure]

theorem performed_of_none {l : List Step} (h : firstFailure l = none) :
    performed l = l.map Prod.fst := by
  have := performed_append_of_none [] h
  simpa [performed] using this

theorem performed_of_split (pre post : List Step) (op : NativeOp) (e : Error)
    (hpre : ∀ x ∈ pre, x.2 = none) :
    firstFailure (pre ++ (op, some e) :: post) = some e ∧
    performed (pre ++ (op, some e) :: post) = pre.map Prod.fst ++ [op] := by
  have hnone := (firstFailure_eq_none_iff pre).mpr hpre
  rw [firstFailure_append_of_none _ hnone, performed_append_of_none _ hnone]
  simp [firstFailure, performed]

/-- No step of the loop starts advertising. -/
theorem AddService.loopSteps_ne_start (conv : UUID → GUID) (env : ServiceEnv)
    (cs : List CharacteristicConfig) :
    ∀ (i : Nat), ∀ x ∈ AddService.loopSteps conv env i cs,
      x.1 ≠ NativeOp.StartAdvertisingWithParameters := by
  induction cs with
  | nil =>
    intro i x hx
    simp [AddService.loopSteps] at hx
  | cons char rest ih =>
    intro i x hx
    simp only [AddService.loopSteps, List.mem_append] at hx
    rcases hx with hx | hx
    · simp only [AddService.bodySteps, List.mem_cons, List.mem_singleton, List.not_mem_nil,
        or_false] at hx
      rcases hx with h | h | h | h | h | h | h | h <;> simp [h]
    · exact ih (i + 1) x hx

/-- The steps of `AddService` are steps that do not start advertising followed by the one
step that does. -/
theorem AddService.steps_start_last (conv : UUID → GUID) (env : ServiceEnv) (s : Service) :
    ∃ init : List Step,
      AddService.steps conv env s =
        init ++ [(NativeOp.StartAdvertisingWithParameters, env.startAdvertising)] ∧
      ∀ x ∈ init, x.1 ≠ NativeOp.StartAdvertisingWithParameters := by
  refine ⟨AddService.createSteps conv env s ++
    (AddService.loopSteps conv env 0 s.Characteristics ++
      [(.NewGattServiceProviderAdvertisingParameters, env.newAdvertisingParameters),
       (.SetIsConnectable true, env.setIsConnectable),
       (.SetIsDiscoverable true, env.setIsDiscoverable)]), ?_, ?_⟩
  · simp [AddService.steps, AddService.advertiseSteps]
  · intro x hx
    simp only [List.mem_append] at hx
    rcases hx with hx | hx | hx
    · simp only [AddService.createSteps, List.mem_cons, List.mem_singleton, List.not_mem_nil,
        or_false] at hx
      rcases hx with h | h | h | h | h <;> simp [h]
    · exact AddService.loopSteps_ne_start conv env s.Characteristics 0 x hx
    · simp only [List.mem_cons, List.mem_singleton, List.not_mem_nil, or_false] at hx
      rcases hx with h | h | h <;> simp [h]

/-- A step of `AddService` that is followed by another step does not start advertising. -/
theorem AddService.steps_not_start (conv : UUID → GUID) (env : ServiceEnv) (s : Service)
    (pre post : List Step) (x y : Step)
    (h : AddService.steps conv env s = pre ++ x :: y :: post) :
    ∀ z ∈ pre ++ [x], z.1 ≠ NativeOp.StartAdvertisingWithParameters := by
  obtain ⟨init, hinit, hne⟩ := AddService.steps_start_last conv env s
  rw [hinit] at h
  rcases List.eq_nil_or_concat (y :: post) with hnil | ⟨L, b, hL⟩
  · simp at hnil
  · rw [hL, List.concat_eq_append] at h
    have h2 : init ++ [(NativeOp.StartAdvertisingWithParameters, env.startAdvertising)] =
        (pre ++ x :: L) ++ [b] := by
      rw [h]
      simp
    have h3 := congrArg List.dropLast h2
    simp only [List.dropLast_concat] at h3
    intro z hz
    apply hne
    rw [h3]
    simp only [List.mem_append, List.mem_singleton, List.mem_cons] at hz ⊢
    rcases hz with hz | hz | hz
    · exact Or.inl hz
    · exact Or.inr (Or.inl hz)
    · simp at hz

/-- C7: take the native steps of `AddService` in program order.  If a step fails with error
`e` after all steps before it succeeded, `AddService` returns `e` and has made exactly the
native calls up to that step, none of the later ones; when that step is not the start of
advertising, advertising is never started.  `AddService` returns nil only if every step
succeeded, the start of advertising included, and then it made all the calls.  Every entry
of the map comes from a descriptor with a `Handle` whose iteration, like all iterations
before it, completed all its native steps. -/
theorem AddService_stops_at_first_failure (conv : UUID → GUID) (env : ServiceEnv) (s : Service)
    (w : World) :
    (∀ (pre post : List Step) (op : NativeOp) (e : Error),
      AddService.steps conv env s = pre ++ (op, some e) :: post →
      (∀ x ∈ pre, x.2 = none) →
      (AddService conv env s w).err = some e ∧
      nativeCalls (AddService conv env s w).world.trace =
        nativeCalls w.trace ++ (pre.map Prod.fst ++ [op]) ∧
      (op ≠ NativeOp.StartAdvertisingWithParameters →
        NativeOp.StartAdvertisingWithParameters ∉ pre.map Prod.fst ++ [op])) ∧
    ((AddService conv env s w).err = none →
      (∀ x ∈ AddService.steps conv env s, x.2 = none) ∧
      nativeCalls (AddService conv env s w).world.trace =
        nativeCalls w.trace ++ (AddService.steps conv env s).map Prod.fst) ∧
    (∀ (g : GUID) (h : Nat), (AddService conv env s w).goChars g = some h →
      ∃ k d, s.Characteristics[k]? = some d ∧ d.Handle = some h ∧ conv d.UUID = g ∧
        ∀ j d1, j ≤ k → s.Characteristics[j]? = some d1 →
          firstFailure (AddService.bodySteps conv (env.chars j) d1) = none) := by
  obtain ⟨herr, hcalls⟩ := AddService_spec conv env s w
  refine ⟨?_, ?_, ?_⟩
  · intro pre post op e hsteps hpre
    obtain ⟨hff, hperf⟩ := performed_of_split pre post op e hpre
    rw [herr, hcalls, hsteps, hff, hperf]
    refine ⟨rfl, rfl, ?_⟩
    intro hop hmem
    cases post with
    | nil =>
      obtain ⟨init, hinit, _⟩ := AddService.steps_start_last conv env s
      rw [hinit] at hsteps
      have hlast := congrArg List.reverse hsteps
      simp only [List.reverse_append, List.reverse_cons, List.reverse_nil, List.nil_append,
        List.singleton_append, List.cons.injEq, Prod.mk.injEq] at hlast
      exact hop hlast.1.1.symm
    | cons y post =>
      have hne := AddService.steps_not_start conv env s pre post (op, some e) y hsteps
      have hmem2 : ∃ z ∈ pre ++ [(op, some e)],
          z.1 = NativeOp.StartAdvertisingWithParameters := by
        simp only [List.mem_append, List.mem_map, List.mem_singleton] at hmem
        rcases hmem with ⟨z, hz, hz1⟩ | hz
        · exact ⟨z, by simp [hz], hz1⟩
        · exact ⟨(op, some e), by simp, hz.symm⟩
      obtain ⟨z, hz, hz1⟩ := hmem2
      exact hne z hz hz1
  · intro hnone
    rw [herr] at hnone
    refine ⟨(firstFailure_eq_none_iff _).mp hnone, ?_⟩
    rw [hcalls, performed_of_none hnone]
  · intro g h hg
    rcases AddService_cases conv env s w with ⟨e, w0, hrun, _⟩ | ⟨w0, _, hrun⟩
    · rw [hrun] at hg
      exact Option.noConfusion hg
    · rw [hrun] at hg
      rcases AddService.loop_goChars_origin conv env g h s.Characteristics 0 (fun _ => none) w0
        hg with habs | ⟨k, d, hk, hdh, hdg, hall⟩
      · exact Option.noConfusion habs
      · refine ⟨k, d, hk, hdh, hdg, ?_⟩
        intro j d1 hj hd1
        have := hall j d1 hj hd1
        simpa using this

/-- An example run: the creation of the second characteristic fails when awaited.
`AddService` returns that error, the first descriptor is in the map, the second is not, and
the last native call is the one that failed. -/
theorem AddService_failure_example :
    (AddService sampleConv ServiceEnv.secondAwaitFails serviceWithTwo emptyWorld).err = some 3 ∧
    (AddService sampleConv ServiceEnv.secondAwaitFails serviceWithTwo emptyWorld).goChars
      (sampleConv 1) = some 0 ∧
    (AddService sampleConv ServiceEnv.secondAwaitFails serviceWithTwo emptyWorld).goChars
      (sampleConv 2) = none ∧
    nativeCalls
      (AddService sampleConv ServiceEnv.secondAwaitFails serviceWithTwo emptyWorld).world.trace =
      [.GattServiceProviderCreateAsync (sampleConv 100), .awaitServiceProvider,
       .getResultsServiceProvider, .GetServiceProvider, .GetService,
       .NewGattLocalCharacteristicParameters, .SetCharacteristicProperties 8,
       .CreateCharacteristicAsync (sampleConv 1), .awaitCharacteristic,
       .getResultsCharacteristic, .GetCharacteristic, .AddWriteRequested, .AddReadRequested,
       .NewGattLocalCharacteristicParameters, .SetCharacteristicProperties 2,
       .CreateCharacteristicAsync (sampleConv 2), .awaitCharacteristic] := by
  decide


end Bluetooth
